import Mathlib

/-!
# lotto-match: positional matching and ranking of lottery draw records

A shallow embedding of `src/lotto-match.cpp` and the properties of its
matching (`processCsvFile`) and ranking (`MatchedLineInfo::operator<`) core.

Conventions of the embedding:

* a `std::string` is the list of its characters (`CppString`); the numeric
  code of a character stands for its `unsigned char` value;
* `int` values are `Int`; the counters of the program (at most six
  increments of the match count, one increment per line of the line
  number) stay far from the limits of `int`;
* indexing a `std::vector` or `std::string` outside its bounds, which C++
  leaves undefined, is the explicit outcome `Fault.indexOutOfBounds`;
* the exceptions of `std::stoi` are the error values of `StoiError`.
-/

namespace LottoMatch

/-! ## Strings and the standard-library functions the program calls -/

/-- A `std::string`: its characters in order. -/
abbrev CppString := List Char

/-- The macro `ANSI_COLOR_GREEN`. -/
def ANSI_COLOR_GREEN : CppString := "\x1b[32m".toList

/-- The macro `ANSI_COLOR_YELLOW`. -/
def ANSI_COLOR_YELLOW : CppString := "\x1b[33m".toList

/-- The macro `ANSI_COLOR_RESET`. -/
def ANSI_COLOR_RESET : CppString := "\x1b[0m".toList

/-- The function `std::isalpha` in the "C" locale (the program never calls `setlocale`):
the 52 ASCII letters. -/
def isalpha (c : Char) : Bool :=
  (65 ≤ c.toNat && c.toNat ≤ 90) || (97 ≤ c.toNat && c.toNat ≤ 122)

/-- The function `std::isspace` in the "C" locale: space, `\t`, `\n`, `\v`, `\f`, `\r`. -/
def isspace (c : Char) : Bool :=
  c.toNat == 32 || (9 ≤ c.toNat && c.toNat ≤ 13)

/-- The function `std::isdigit`: the ten decimal digits. -/
def isdigit (c : Char) : Bool :=
  48 ≤ c.toNat && c.toNat ≤ 57

/-- The call `std::getline(stream, token, delimiter)` on the unread rest of a string
stream: fails (`none`) when nothing can be extracted, otherwise extracts up
to the end or up to and including the first delimiter, which is dropped;
returns the token and the rest of the stream. -/
def getline (stream : CppString) (delimiter : Char) : Option (CppString × CppString) :=
  match stream with
  | [] => none
  | _ :: _ =>
    some (stream.takeWhile (fun c => c != delimiter),
          (stream.dropWhile (fun c => c != delimiter)).drop 1)

/-- The `while (std::getline(tokenStream, token, delimiter))` loop of `split`. -/
def splitLoop (delimiter : Char) : Nat → CppString → List CppString → List CppString
  | 0, _, tokens => tokens
  | fuel + 1, tokenStream, tokens =>
    match getline tokenStream delimiter with
    | none => tokens
    | some (token, rest) => splitLoop delimiter fuel rest (tokens ++ [token])

/-- The function `split(s, delimiter)`: every `getline` takes at least one character, so
`s.length + 1` rounds let the loop reach the end of the stream. -/
def split (s : CppString) (delimiter : Char) : List CppString :=
  splitLoop delimiter (s.length + 1) s []

/-- The exceptions `std::stoi` throws. -/
inductive StoiError where
  | invalid_argument
  | out_of_range
  deriving DecidableEq

/-- The value of a run of decimal digits, most significant first. -/
def digitsValue (ds : List Char) : Nat :=
  ds.foldl (fun acc d => 10 * acc + (d.toNat - 48)) 0

/-- The call `std::stoi(str)` (base 10, no `pos` argument), as `strtol` reads it:
leading white space is skipped, one sign is optional, then the longest run
of digits is converted and whatever follows it is ignored. With no digit
there `invalid_argument` is thrown; a value outside the range of a 32-bit
`int` throws `out_of_range`. -/
def stoi (str : CppString) : Except StoiError Int :=
  let s := str.dropWhile isspace
  let negative : Bool := s.head? == some '-'
  let s := if s.head? == some '-' || s.head? == some '+' then s.drop 1 else s
  let digits := s.takeWhile isdigit
  if digits.isEmpty then
    .error .invalid_argument
  else
    let magnitude : Int := (digitsValue digits : Nat)
    let value : Int := if negative then -magnitude else magnitude
    if value < -2147483648 ∨ 2147483647 < value then
      .error .out_of_range
    else
      .ok value

/-- The output operator `operator<<(std::ostream&, int)`: the decimal rendering of an `int`. -/
def intToString (n : Int) : CppString :=
  if n < 0 then '-' :: Nat.toDigits 10 n.natAbs else Nat.toDigits 10 n.toNat

/-- The comparison `operator<` of `std::string`: lexicographic on the character codes, a
proper prefix being smaller. -/
def stringLt : CppString → CppString → Bool
  | [], [] => false
  | [], _ :: _ => true
  | _ :: _, [] => false
  | a :: as, b :: bs =>
    if a.toNat < b.toNat then true
    else if b.toNat < a.toNat then false
    else stringLt as bs

/-! ## The data model -/

/-- What the embedding reports where the C++ program would have undefined
behaviour. -/
inductive Fault where
  | indexOutOfBounds
  deriving DecidableEq

/-- The record `struct MatchedLineInfo`. -/
structure MatchedLineInfo where
  outputString : CppString
  matchCount : Int
  filename : CppString
  originalLineNumber : Int
  matchedChosenPositions : List Bool
  deriving DecidableEq

/-! ## `MatchedLineInfo::operator<` -/

/-- The `for` loop of `operator<` over the match flags, from index `i`:
`some r` when the loop returns `r` at the first index where the flags
differ, `none` when it runs to the end. -/
def positionsLoop (mine other : List Bool) : Nat → Nat → Except Fault (Option Bool)
  | 0, _ => .ok none
  | fuel + 1, i =>
    if i < mine.length then
      match mine[i]?, other[i]? with
      | some x, some y =>
        if x != y then .ok (some (x && !y))
        else positionsLoop mine other fuel (i + 1)
      | _, _ => .error .indexOutOfBounds
    else .ok none

/-- The comparison `MatchedLineInfo::operator<`, with `a` as `*this` and `b` as `other`. -/
def MatchedLineInfo.lt (a b : MatchedLineInfo) : Except Fault Bool :=
  if a.matchCount ≠ b.matchCount then
    .ok (decide (a.matchCount > b.matchCount))
  else
    match positionsLoop a.matchedChosenPositions b.matchedChosenPositions
        a.matchedChosenPositions.length 0 with
    | .error e => .error e
    | .ok (some r) => .ok r
    | .ok none =>
      if a.filename ≠ b.filename then
        .ok (stringLt a.filename b.filename)
      else
        .ok (decide (a.originalLineNumber < b.originalLineNumber))

/-! ## `processCsvFile` -/

/-- The variables the loop over the value fields updates. -/
structure LoopState where
  currentPositionalMatchCount : Int
  numbersOutput : CppString
  lineMatchedChosenPositions : List Bool
  deriving DecidableEq

/-- The `if (i < 6 && i < fields.size() - 1)` separator after a parsed value.
Inside the loop `i < fields.size()` holds, so the unsigned subtraction does
not wrap. -/
def separator (fields : List CppString) (i : Nat) : CppString :=
  if i < 6 ∧ i < fields.length - 1 then [' '] else []

/-- The body of the loop `for (int i = 1; i <= 6 && i < fields.size(); ++i)`:
the `try` block and its two empty `catch` clauses. -/
def loopBody (fields : List CppString) (chosenNumbers : List Int) (i : Nat)
    (st : LoopState) : Except Fault LoopState :=
  match fields[i]? with
  | none => .error .indexOutOfBounds
  | some field =>
    match stoi field with
    | .error _ => .ok st
    | .ok currentNumber =>
      let unmatched : LoopState :=
        { st with numbersOutput :=
            st.numbersOutput ++ intToString currentNumber ++ separator fields i }
      if i - 1 < chosenNumbers.length then
        match chosenNumbers[i - 1]? with
        | none => .error .indexOutOfBounds
        | some chosen =>
          if currentNumber = chosen then
            if i - 1 < st.lineMatchedChosenPositions.length then
              .ok { currentPositionalMatchCount := st.currentPositionalMatchCount + 1
                    numbersOutput :=
                      st.numbersOutput ++ ANSI_COLOR_GREEN ++ intToString currentNumber
                        ++ ANSI_COLOR_RESET ++ separator fields i
                    lineMatchedChosenPositions :=
                      st.lineMatchedChosenPositions.set (i - 1) true }
            else .error .indexOutOfBounds
          else .ok unmatched
      else .ok unmatched

/-- The loop `for (int i = 1; i <= 6 && i < fields.size(); ++i)` from the
value `i`; it is entered with `i = 1` and six rounds of fuel, which the
bound `i <= 6` never lets it use up. -/
def fieldLoop (fields : List CppString) (chosenNumbers : List Int) :
    Nat → Nat → LoopState → Except Fault LoopState
  | 0, _, st => .ok st
  | fuel + 1, i, st =>
    if i ≤ 6 ∧ i < fields.length then
      match loopBody fields chosenNumbers i st with
      | .error e => .error e
      | .ok st' => fieldLoop fields chosenNumbers fuel (i + 1) st'
    else .ok st

/-- The text "(Not found)" that stands in for an empty first field. -/
def notFound : CppString := "(Not found)".toList

/-- One round of the `while (std::getline(file, line))` loop of
`processCsvFile`, after `lineNumber++`: `none` when the line adds nothing to
`matchedLinesForFile`, `some info` when `info` is pushed. -/
def processLine (filename : CppString) (chosenNumbers : List Int) (lineNumber : Int)
    (line : CppString) : Except Fault (Option MatchedLineInfo) :=
  match line with
  | [] => .ok none
  | c :: _ =>
    if isalpha c then .ok none
    else
      let fields := split line ';'
      match fields with
      | [] => .ok none
      | first :: _ =>
        let dateString := if first ≠ [] then first else notFound
        match fieldLoop fields chosenNumbers 6 1
            { currentPositionalMatchCount := 0
              numbersOutput := []
              lineMatchedChosenPositions := List.replicate chosenNumbers.length false } with
        | .error e => .error e
        | .ok st =>
          if st.currentPositionalMatchCount > 0 then
            .ok (some
              { outputString :=
                  ANSI_COLOR_YELLOW ++ dateString ++ ANSI_COLOR_RESET ++ [' ']
                    ++ st.numbersOutput
                matchCount := st.currentPositionalMatchCount
                filename := filename
                originalLineNumber := lineNumber
                matchedChosenPositions := st.lineMatchedChosenPositions })
          else .ok none

/-- The `while (std::getline(file, line))` loop of `processCsvFile` over the
lines still to read, `lineNumber` being the number of lines read so far. -/
def processLines (filename : CppString) (chosenNumbers : List Int) :
    Int → List CppString → List MatchedLineInfo → Except Fault (List MatchedLineInfo)
  | _, [], matchedLinesForFile => .ok matchedLinesForFile
  | lineNumber, line :: rest, matchedLinesForFile =>
    match processLine filename chosenNumbers (lineNumber + 1) line with
    | .error e => .error e
    | .ok none => processLines filename chosenNumbers (lineNumber + 1) rest matchedLinesForFile
    | .ok (some info) =>
      processLines filename chosenNumbers (lineNumber + 1) rest (matchedLinesForFile ++ [info])

/-- The function `processCsvFile(filename, chosenNumbers)`; `file` is what opening
`filename` gives: `none` when the file cannot be opened, else its lines as
`std::getline(file, line)` delivers them. -/
def processCsvFile (file : Option (List CppString)) (filename : CppString)
    (chosenNumbers : List Int) : Except Fault (List MatchedLineInfo) :=
  match file with
  | none => .ok []
  | some lines => processLines filename chosenNumbers 0 lines []

/-! ## The rest of `main` that the claims speak of -/

/-- The vector `chosenNumbers` that `main` passes to `processCsvFile`. -/
def mainChosenNumbers : List Int := [4, 6, 8, 18, 21, 26]

/-- The loop of `main` over `csvFiles` that appends the results of every file
to `allMatchedLines`; `openFile` gives what opening a file name yields. -/
def collectMatchedLines (openFile : CppString → Option (List CppString))
    (chosenNumbers : List Int) :
    List CppString → List MatchedLineInfo → Except Fault (List MatchedLineInfo)
  | [], allMatchedLines => .ok allMatchedLines
  | filename :: rest, allMatchedLines =>
    match processCsvFile (openFile filename) filename chosenNumbers with
    | .error e => .error e
    | .ok linesFromFile =>
      collectMatchedLines openFile chosenNumbers rest (allMatchedLines ++ linesFromFile)

/-- What the C++ standard promises of `std::sort(first, last)` with
`operator<`, whatever algorithm the library uses: the range afterwards is a
rearrangement of the range before, and no element is followed by one that
compares less than it. -/
def StdSortPost (before after : List MatchedLineInfo) : Prop :=
  after.Perm before ∧ after.Pairwise (fun x y => y.lt x ≠ .ok true)

/-! ## Vocabulary of the specification -/

/-- Equality of two outcomes of the embedding can be decided. -/
instance instDecidableEqExcept {ε α : Type} [DecidableEq ε] [DecidableEq α] :
    DecidableEq (Except ε α)
  | .ok a, .ok b => if h : a = b then isTrue (by rw [h]) else isFalse (by simpa using h)
  | .error a, .error b => if h : a = b then isTrue (by rw [h]) else isFalse (by simpa using h)
  | .ok _, .error _ => isFalse (by simp)
  | .error _, .ok _ => isFalse (by simp)

/-- Whether a list is what `std::sort` may leave of another can be decided. -/
instance instDecidableStdSortPost (before after : List MatchedLineInfo) :
    Decidable (StdSortPost before after) := by
  unfold StdSortPost; infer_instance

/-- The skip rule in the words of the specification: the line is empty or
its first character is alphabetic. -/
def isSkipped (line : CppString) : Bool :=
  match line with
  | [] => true
  | c :: _ => isalpha c

/-- The value at position `p` (counted from 0): the integer that `std::stoi`
reads from field `p + 1`, when that field exists and is accepted. -/
def parsedValue (fields : List CppString) (p : Nat) : Option Int :=
  match fields[p + 1]? with
  | none => none
  | some field =>
    match stoi field with
    | .ok value => some value
    | .error _ => none

/-- Position `p` is a positional match: field `p + 1` exists, parses, and its
value equals `chosenNumbers[p]`. -/
def positionMatches (fields : List CppString) (chosenNumbers : List Int) (p : Nat) : Bool :=
  match parsedValue fields p, chosenNumbers[p]? with
  | some value, some chosen => decide (value = chosen)
  | _, _ => false

/-- The number of positional matches among positions 0..5. -/
def matchTotal (fields : List CppString) (chosenNumbers : List Int) : Nat :=
  (List.range 6).countP (positionMatches fields chosenNumbers)

/-- The text that position `p` adds to `numbersOutput`: nothing for a missing
or rejected field, else the value, highlighted when it matches, and the
separator the program writes after it. -/
def fieldToken (fields : List CppString) (chosenNumbers : List Int) (p : Nat) : CppString :=
  match parsedValue fields p with
  | none => []
  | some value =>
    (if positionMatches fields chosenNumbers p then
        ANSI_COLOR_GREEN ++ intToString value ++ ANSI_COLOR_RESET
      else intToString value) ++ separator fields (p + 1)

/-- The label of a line: its first field, or "(Not found)" when that field is
empty. -/
def dateLabel (fields : List CppString) : CppString :=
  match fields with
  | [] => []
  | first :: _ => if first ≠ [] then first else notFound

/-- The state of the loop over the value fields before its first round. -/
def initialState (chosenNumbers : List Int) : LoopState :=
  { currentPositionalMatchCount := 0
    numbersOutput := []
    lineMatchedChosenPositions := List.replicate chosenNumbers.length false }

/-- The effect of one round of the loop, for position `p`, written with
`positionMatches` and `fieldToken`. -/
def stepState (fields : List CppString) (chosenNumbers : List Int) (p : Nat)
    (st : LoopState) : LoopState :=
  { currentPositionalMatchCount :=
      st.currentPositionalMatchCount + (if positionMatches fields chosenNumbers p then 1 else 0)
    numbersOutput := st.numbersOutput ++ fieldToken fields chosenNumbers p
    lineMatchedChosenPositions :=
      if positionMatches fields chosenNumbers p then st.lineMatchedChosenPositions.set p true
      else st.lineMatchedChosenPositions }

/-- The effect of `n` rounds of the loop from position `p` on. -/
def stepsFrom (fields : List CppString) (chosenNumbers : List Int) :
    Nat → Nat → LoopState → LoopState
  | 0, _, st => st
  | n + 1, p, st => stepsFrom fields chosenNumbers n (p + 1) (stepState fields chosenNumbers p st)

/-- The result a line that is not skipped and has a match is shown to
produce (`processLine_eq`), in the vocabulary above. -/
def expectedInfo (filename : CppString) (chosenNumbers : List Int) (lineNumber : Int)
    (line : CppString) : MatchedLineInfo :=
  { outputString :=
      ANSI_COLOR_YELLOW ++ dateLabel (split line ';') ++ ANSI_COLOR_RESET ++ [' ']
        ++ ((List.range 6).map (fieldToken (split line ';') chosenNumbers)).flatten
    matchCount := (matchTotal (split line ';') chosenNumbers : Nat)
    filename := filename
    originalLineNumber := lineNumber
    matchedChosenPositions :=
      (List.range chosenNumbers.length).map
        (fun q => decide (q < 6) && positionMatches (split line ';') chosenNumbers q) }

/-- The text of a field is an integer, as the specification reads it: an
optional sign, then decimal digits and nothing else. -/
def isIntegerText (text : CppString) : Bool :=
  let body := if text.head? == some '-' || text.head? == some '+' then text.drop 1 else text
  !body.isEmpty && body.all isdigit

/-- The result of the loop of `operator<` over two flag vectors, by recursion
on the vectors: the verdict at the first index where they differ. -/
def firstDifference : List Bool → List Bool → Option Bool
  | x :: xs, y :: ys => if x != y then some (x && !y) else firstDifference xs ys
  | _, _ => none

/-- The match flags read as a binary number, position 0 being the most
significant bit. -/
def positionBits : List Bool → Nat
  | [] => 0
  | b :: bs => (if b then 2 ^ bs.length else 0) + positionBits bs

/-- The composite ordering key of the specification. -/
abbrev RankKey := Int × Int × CppString × Int

/-- The key `(-matchCount, -bits, filename, originalLineNumber)` of a result. -/
def rankKey (a : MatchedLineInfo) : RankKey :=
  (-a.matchCount, -(positionBits a.matchedChosenPositions : Int), a.filename,
    a.originalLineNumber)

/-- The lexicographic order of keys: the first component that differs
decides, file names being compared as strings. -/
def keyLt (k l : RankKey) : Prop :=
  k.1 < l.1 ∨ (k.1 = l.1 ∧
    (k.2.1 < l.2.1 ∨ (k.2.1 = l.2.1 ∧
      (stringLt k.2.2.1 l.2.2.1 = true ∨ (k.2.2.1 = l.2.2.1 ∧ k.2.2.2 < l.2.2.2)))))

/-- The order of keys can be decided. -/
instance instDecidableKeyLt (k l : RankKey) : Decidable (keyLt k l) := by
  unfold keyLt; infer_instance

/-- A result with the given flags, match count, file name and line number,
for examples. -/
def sampleInfo (flags : List Bool) (count : Int) (file : String) (lineNo : Int) :
    MatchedLineInfo :=
  { outputString := []
    matchCount := count
    filename := file.toList
    originalLineNumber := lineNo
    matchedChosenPositions := flags }

/-- The line of scenario 1 of the specification. -/
def scenarioLine1 : CppString := "2024-01-01;4;6;8;18;21;26".toList

/-- The line of scenario 2 of the specification. -/
def scenarioLine2 : CppString := "2024-01-01;4;99;8;99;21;26".toList

/-- The line of scenario 5 of the specification. -/
def scenarioLine5 : CppString := "2024-01-01;4;abc;8;18;21;26".toList

/-- A directory for examples: `a.csv` with a header line, a line with one
match, an empty line and a line with two matches; no other file opens. -/
def sampleFiles : CppString → Option (List CppString) := fun name =>
  if name = "a.csv".toList then
    some ["date;n1;n2".toList, "2024-01-01;1;6;3".toList, [], "2024-01-08;4;6;9".toList]
  else none

/-- The result of line 2 of `a.csv` in `sampleFiles`. -/
def sampleResult2 : MatchedLineInfo :=
  { outputString := "\x1b[33m2024-01-01\x1b[0m 1 \x1b[32m6\x1b[0m 3".toList
    matchCount := 1
    filename := "a.csv".toList
    originalLineNumber := 2
    matchedChosenPositions := [false, true, false, false, false, false] }

/-- The result of line 4 of `a.csv` in `sampleFiles`. -/
def sampleResult4 : MatchedLineInfo :=
  { outputString := "\x1b[33m2024-01-08\x1b[0m \x1b[32m4\x1b[0m \x1b[32m6\x1b[0m 9".toList
    matchCount := 2
    filename := "a.csv".toList
    originalLineNumber := 4
    matchedChosenPositions := [true, true, false, false, false, false] }

/-- The line of scenario 4 of the specification. -/
def scenarioLine4 : CppString := "#header;x;y;z".toList

/-- The part of the outcome of a line that matching decides: whether there is
a result, and its match count and match flags. -/
def matchingPart (outcome : Except Fault (Option MatchedLineInfo)) :
    Except Fault (Option (Int × List Bool)) :=
  match outcome with
  | .error e => .error e
  | .ok none => .ok none
  | .ok (some info) => .ok (some (info.matchCount, info.matchedChosenPositions))

/-- The part of the outcome of a line that does not name the file or the
line number: whether there is a result, and its match count, match flags
and display string. -/
def visiblePart (outcome : Except Fault (Option MatchedLineInfo)) :
    Except Fault (Option (Int × List Bool × CppString)) :=
  match outcome with
  | .error e => .error e
  | .ok none => .ok none
  | .ok (some info) =>
    .ok (some (info.matchCount, info.matchedChosenPositions, info.outputString))

/-- The line of scenario 3 of the specification. -/
def scenarioLine3 : CppString := ";1;2;3;4;5;6".toList

/-- The number an integer text denotes: the value of its digits, negated after
a minus sign. -/
def integerTextValue (text : CppString) : Int :=
  if text.head? == some '-' then -((digitsValue (text.drop 1) : Nat) : Int)
  else if text.head? == some '+' then ((digitsValue (text.drop 1) : Nat) : Int)
  else ((digitsValue text : Nat) : Int)

/-- What one line adds to `matchedLinesForFile`: nothing, or its one result. -/
def lineResults (filename : CppString) (chosenNumbers : List Int) (lineNumber : Int)
    (line : CppString) : List MatchedLineInfo :=
  if isSkipped line = true ∨ matchTotal (split line ';') chosenNumbers = 0 then []
  else [expectedInfo filename chosenNumbers lineNumber line]

/-- What the lines still to read add to `matchedLinesForFile`, `lineNumber`
being the number of lines read before them. -/
def resultsFrom (filename : CppString) (chosenNumbers : List Int) :
    Int → List CppString → List MatchedLineInfo
  | _, [] => []
  | lineNumber, line :: rest =>
    lineResults filename chosenNumbers (lineNumber + 1) line
      ++ resultsFrom filename chosenNumbers (lineNumber + 1) rest

/-- The results of one file: none when it does not open. -/
def fileResults (file : Option (List CppString)) (filename : CppString)
    (chosenNumbers : List Int) : List MatchedLineInfo :=
  match file with
  | none => []
  | some lines => resultsFrom filename chosenNumbers 0 lines

/-- The results of the files of `csvFiles`, file after file. -/
def allResults (openFile : CppString → Option (List CppString)) (chosenNumbers : List Int) :
    List CppString → List MatchedLineInfo
  | [] => []
  | filename :: rest =>
    fileResults (openFile filename) filename chosenNumbers
      ++ allResults openFile chosenNumbers rest

/-- The non-strict order of keys: `k` is not after `l`. -/
def keyLe (k l : RankKey) : Prop := ¬ keyLt l k

/-- The non-strict order of keys can be decided. -/
instance instDecidableKeyLe (k l : RankKey) : Decidable (keyLe k l) := by
  unfold keyLe; infer_instance

/-- A result is not after another in the order of keys. -/
def notAfter (a b : MatchedLineInfo) : Prop := keyLe (rankKey a) (rankKey b)

/-- Whether a result is not after another can be decided. -/
instance instDecidableNotAfter : DecidableRel notAfter := fun a b => by
  unfold notAfter; infer_instance

/-- Two results agree in all four keys of the order. -/
def sameKeys (a b : MatchedLineInfo) : Prop :=
  a.matchCount = b.matchCount ∧ a.matchedChosenPositions = b.matchedChosenPositions ∧
    a.filename = b.filename ∧ a.originalLineNumber = b.originalLineNumber

/-- A result with the keys of `sampleInfo` and a display string of its own. -/
def sampleTie (text : String) : MatchedLineInfo :=
  { sampleInfo [true, false, false, false, false, false] 1 "a.csv" 1 with
    outputString := text.toList }

/-- Whether two results agree in all four keys can be decided. -/
instance instDecidableSameKeys (a b : MatchedLineInfo) : Decidable (sameKeys a b) := by
  unfold sameKeys; infer_instance

/-! ## Strings are totally ordered by `operator<` -/

theorem char_eq_of_toNat_eq {a b : Char} (h : a.toNat = b.toNat) : a = b := by
  have := congrArg Char.ofNat h
  simpa using this

theorem stringLt_irrefl (s : CppString) : stringLt s s = false := by
  induction s with
  | nil => rfl
  | cons c cs ih => simp [stringLt, ih]

theorem stringLt_trans : ∀ (s t u : CppString),
    stringLt s t = true → stringLt t u = true → stringLt s u = true
  | [], [], _, h, _ => by simp [stringLt] at h
  | [], _ :: _, [], _, h => by simp [stringLt] at h
  | [], _ :: _, _ :: _, _, _ => by simp [stringLt]
  | _ :: _, [], _, h, _ => by simp [stringLt] at h
  | _ :: _, _ :: _, [], _, h => by simp [stringLt] at h
  | a :: as, b :: bs, c :: cs, h₁, h₂ => by
    simp only [stringLt] at h₁ h₂ ⊢
    by_cases hab : a.toNat < b.toNat
    · by_cases hbc : b.toNat < c.toNat
      · have : a.toNat < c.toNat := by omega
        simp [this]
      · simp only [hbc, if_false] at h₂
        by_cases hcb : c.toNat < b.toNat
        · simp [hcb] at h₂
        · have : a.toNat < c.toNat := by omega
          simp [this]
    · simp only [hab, if_false] at h₁
      by_cases hba : b.toNat < a.toNat
      · simp [hba] at h₁
      · simp only [hba, if_false] at h₁
        by_cases hbc : b.toNat < c.toNat
        · have : a.toNat < c.toNat := by omega
          simp [this]
        · simp only [hbc, if_false] at h₂
          by_cases hcb : c.toNat < b.toNat
          · simp [hcb] at h₂
          · simp only [hcb, if_false] at h₂
            have h1 : ¬ a.toNat < c.toNat := by omega
            have h2 : ¬ c.toNat < a.toNat := by omega
            simp only [h1, h2, if_false]
            exact stringLt_trans as bs cs h₁ h₂

theorem stringLt_total : ∀ (s t : CppString), s ≠ t →
    stringLt s t = true ∨ stringLt t s = true
  | [], [], h => absurd rfl h
  | [], _ :: _, _ => by simp [stringLt]
  | _ :: _, [], _ => by simp [stringLt]
  | a :: as, b :: bs, h => by
    simp only [stringLt]
    by_cases hab : a.toNat < b.toNat
    · simp [hab]
    · by_cases hba : b.toNat < a.toNat
      · simp [hba]
      · simp only [hab, hba, if_false]
        have hEq : a = b := char_eq_of_toNat_eq (by omega)
        subst hEq
        have : as ≠ bs := fun e => h (by rw [e])
        exact stringLt_total as bs this

/-! ## The order of keys is a strict total order -/

theorem keyLt_irrefl (k : RankKey) : ¬ keyLt k k := by
  unfold keyLt
  have := stringLt_irrefl k.2.2.1
  intro h
  rcases h with h | ⟨_, h | ⟨_, h | ⟨_, h⟩⟩⟩
  · omega
  · omega
  · simp [this] at h
  · omega

theorem keyLt_trans {k l m : RankKey} (h₁ : keyLt k l) (h₂ : keyLt l m) : keyLt k m := by
  unfold keyLt at *
  rcases h₁ with h₁ | ⟨e₁, h₁ | ⟨e₁', h₁ | ⟨e₁'', h₁⟩⟩⟩ <;>
  rcases h₂ with h₂ | ⟨e₂, h₂ | ⟨e₂', h₂ | ⟨e₂'', h₂⟩⟩⟩
  all_goals first
    | (left; omega)
    | (right; refine ⟨by omega, ?_⟩; left; omega)
    | (right; refine ⟨by omega, ?_⟩; right; refine ⟨by omega, ?_⟩; left
       first
         | exact stringLt_trans _ _ _ h₁ h₂
         | (rw [← e₂'']; exact h₁)
         | (rw [e₁'']; exact h₂))
    | (right; refine ⟨by omega, ?_⟩; right; refine ⟨by omega, ?_⟩; right
       exact ⟨e₁''.trans e₂'', by omega⟩)

theorem keyLt_total {k l : RankKey} (h : k ≠ l) : keyLt k l ∨ keyLt l k := by
  unfold keyLt
  obtain ⟨k1, k2, k3, k4⟩ := k
  obtain ⟨l1, l2, l3, l4⟩ := l
  simp only
  rcases lt_trichotomy k1 l1 with h1 | h1 | h1
  · exact Or.inl (Or.inl h1)
  · subst h1
    rcases lt_trichotomy k2 l2 with h2 | h2 | h2
    · exact Or.inl (Or.inr ⟨rfl, Or.inl h2⟩)
    · subst h2
      by_cases h3 : k3 = l3
      · subst h3
        rcases lt_trichotomy k4 l4 with h4 | h4 | h4
        · exact Or.inl (Or.inr ⟨rfl, Or.inr ⟨rfl, Or.inr ⟨rfl, h4⟩⟩⟩)
        · subst h4; exact absurd rfl h
        · exact Or.inr (Or.inr ⟨rfl, Or.inr ⟨rfl, Or.inr ⟨rfl, h4⟩⟩⟩)
      · rcases stringLt_total k3 l3 h3 with h3' | h3'
        · exact Or.inl (Or.inr ⟨rfl, Or.inr ⟨rfl, Or.inl h3'⟩⟩)
        · exact Or.inr (Or.inr ⟨rfl, Or.inr ⟨rfl, Or.inl h3'⟩⟩)
    · exact Or.inr (Or.inr ⟨rfl, Or.inl h2⟩)
  · exact Or.inr (Or.inl h1)

/-! ## The loop over the match flags and the binary reading of the flags -/

theorem positionBits_lt (xs : List Bool) : positionBits xs < 2 ^ xs.length := by
  induction xs with
  | nil => simp [positionBits]
  | cons x xs ih =>
    simp only [positionBits, List.length_cons, pow_succ]
    split <;> omega

theorem firstDifference_none : ∀ (xs ys : List Bool), xs.length = ys.length →
    firstDifference xs ys = none → xs = ys
  | [], [], _, _ => rfl
  | [], _ :: _, h, _ => by simp at h
  | _ :: _, [], h, _ => by simp at h
  | x :: xs, y :: ys, h, hd => by
    simp only [firstDifference] at hd
    by_cases hxy : x = y
    · subst hxy
      simp only [bne_self_eq_false, Bool.false_eq_true, if_false] at hd
      rw [firstDifference_none xs ys (by simpa using h) hd]
    · have : (x != y) = true := by simpa using hxy
      simp [this] at hd

theorem firstDifference_self (xs : List Bool) : firstDifference xs xs = none := by
  induction xs with
  | nil => rfl
  | cons x xs ih => simp [firstDifference, ih]

theorem firstDifference_some : ∀ (xs ys : List Bool) (r : Bool), xs.length = ys.length →
    firstDifference xs ys = some r →
    (r = true → positionBits ys < positionBits xs) ∧
    (r = false → positionBits xs < positionBits ys)
  | [], [], _, _, h => by simp [firstDifference] at h
  | [], _ :: _, _, h, _ => by simp at h
  | _ :: _, [], _, h, _ => by simp at h
  | x :: xs, y :: ys, r, h, hd => by
    have hl : xs.length = ys.length := by simpa using h
    simp only [firstDifference] at hd
    have bx := positionBits_lt xs
    have byy := positionBits_lt ys
    rw [hl] at bx
    cases x <;> cases y <;> simp at hd
    · have := firstDifference_some xs ys r hl hd
      simpa [positionBits, hl] using this
    · subst hd; simp [positionBits, hl]; omega
    · subst hd; simp [positionBits, hl]; omega
    · have := firstDifference_some xs ys r hl hd
      simpa [positionBits, hl] using this

/-- The loop over the flags of two vectors of equal length never faults and
returns their first difference. -/
theorem positionsLoop_eq (mine other : List Bool) (h : mine.length = other.length) :
    ∀ (fuel i : Nat), i + fuel = mine.length →
      positionsLoop mine other fuel i
        = .ok (firstDifference (mine.drop i) (other.drop i)) := by
  intro fuel
  induction fuel with
  | zero =>
    intro i hi
    have : mine.drop i = [] := List.drop_eq_nil_of_le (by omega)
    simp [positionsLoop, this, firstDifference]
  | succ fuel ih =>
    intro i hi
    have h1 : i < mine.length := by omega
    have h2 : i < other.length := by omega
    rw [List.drop_eq_getElem_cons h1, List.drop_eq_getElem_cons h2]
    simp only [positionsLoop, h1, if_true, List.getElem?_eq_getElem h1,
      List.getElem?_eq_getElem h2, firstDifference]
    split
    · rfl
    · exact ih (i + 1) (by omega)

/-! ## The comparator is the order of keys -/

theorem positionBits_injective (xs ys : List Bool) (h : xs.length = ys.length)
    (hb : positionBits xs = positionBits ys) : xs = ys := by
  cases hd : firstDifference xs ys with
  | none => exact firstDifference_none xs ys h hd
  | some r =>
    have := firstDifference_some xs ys r h hd
    cases r
    · have := this.2 rfl; omega
    · have := this.1 rfl; omega

/-- The comparator returns whether the key of `a` is smaller than the key of
`b`, for flag vectors of equal length. -/
theorem lt_eq_keyLt (a b : MatchedLineInfo)
    (h : a.matchedChosenPositions.length = b.matchedChosenPositions.length) :
    a.lt b = .ok (decide (keyLt (rankKey a) (rankKey b))) := by
  unfold MatchedLineInfo.lt
  by_cases hm : a.matchCount = b.matchCount
  · simp only [hm, ne_eq, not_true_eq_false, if_false]
    rw [positionsLoop_eq _ _ h _ 0 (by simp)]
    simp only [List.drop_zero]
    cases hd : firstDifference a.matchedChosenPositions b.matchedChosenPositions with
    | some r =>
      have hr := firstDifference_some _ _ r h hd
      simp only
      congr 1
      cases r
      · have := hr.2 rfl
        symm
        simp only [decide_eq_false_iff_not, keyLt, rankKey]
        intro hk
        rcases hk with hk | ⟨_, hk | ⟨hk, _⟩⟩ <;> omega
      · have := hr.1 rfl
        symm
        simp only [decide_eq_true_eq, keyLt, rankKey]
        exact Or.inr ⟨by omega, Or.inl (by omega)⟩
    | none =>
      have he := firstDifference_none _ _ h hd
      simp only
      by_cases hf : a.filename = b.filename
      · simp only [hf, ne_eq, not_true_eq_false, if_false]
        congr 1
        apply decide_eq_decide.mpr
        simp only [keyLt, rankKey]
        constructor
        · intro hl
          exact Or.inr ⟨by rw [hm], Or.inr ⟨by rw [he], Or.inr ⟨hf, hl⟩⟩⟩
        · intro hk
          rw [he, hf, stringLt_irrefl] at hk
          rcases hk with hk | ⟨_, hk | ⟨_, hk | ⟨_, hk⟩⟩⟩
          · omega
          · omega
          · simp at hk
          · exact hk
      · simp only [ne_eq, hf, not_false_eq_true, if_true]
        congr 1
        cases hs : stringLt a.filename b.filename
        · symm
          simp only [decide_eq_false_iff_not, keyLt, rankKey]
          intro hk
          rw [he] at hk
          rcases hk with hk | ⟨_, hk | ⟨_, hk | ⟨hk, _⟩⟩⟩
          · omega
          · omega
          · simp [hs] at hk
          · exact hf hk
        · symm
          simp only [decide_eq_true_eq, keyLt, rankKey]
          exact Or.inr ⟨by rw [hm], Or.inr ⟨by rw [he], Or.inl hs⟩⟩
  · simp only [ne_eq, hm, not_false_eq_true, if_true]
    congr 1
    apply decide_eq_decide.mpr
    simp only [keyLt, rankKey]
    constructor
    · intro hl
      exact Or.inl (by omega)
    · intro hk
      rcases hk with hk | ⟨hk, _⟩ <;> omega

theorem rankKey_eq_iff (a b : MatchedLineInfo)
    (h : a.matchedChosenPositions.length = b.matchedChosenPositions.length) :
    rankKey a = rankKey b ↔
      a.matchCount = b.matchCount ∧ a.matchedChosenPositions = b.matchedChosenPositions ∧
      a.filename = b.filename ∧ a.originalLineNumber = b.originalLineNumber := by
  simp only [rankKey, Prod.mk.injEq, neg_inj]
  constructor
  · rintro ⟨h1, h2, h3, h4⟩
    exact ⟨h1, positionBits_injective _ _ h (by exact_mod_cast h2), h3, h4⟩
  · rintro ⟨h1, h2, h3, h4⟩
    exact ⟨h1, by rw [h2], h3, h4⟩

theorem lt_true_iff (a b : MatchedLineInfo)
    (h : a.matchedChosenPositions.length = b.matchedChosenPositions.length) :
    a.lt b = .ok true ↔ keyLt (rankKey a) (rankKey b) := by
  rw [lt_eq_keyLt a b h]
  simp

theorem lt_false_iff (a b : MatchedLineInfo)
    (h : a.matchedChosenPositions.length = b.matchedChosenPositions.length) :
    a.lt b = .ok false ↔ ¬ keyLt (rankKey a) (rankKey b) := by
  rw [lt_eq_keyLt a b h]
  simp

theorem firstDifference_of_agreement : ∀ (k : Nat) (xs ys : List Bool),
    (∀ j, j < k → xs[j]? = ys[j]?) → xs[k]? = some true → ys[k]? = some false →
    firstDifference xs ys = some true
  | _, [], _, _, hx, _ => by simp at hx
  | _, _ :: _, [], _, _, hy => by simp at hy
  | 0, x :: xs, y :: ys, _, hx, hy => by
    simp at hx hy
    subst hx; subst hy
    simp [firstDifference]
  | k + 1, x :: xs, y :: ys, hp, hx, hy => by
    have h0 := hp 0 (by omega)
    simp at h0
    subst h0
    simp only [firstDifference, bne_self_eq_false, Bool.false_eq_true, if_false]
    apply firstDifference_of_agreement k xs ys
    · intro j hj
      have := hp (j + 1) (by omega)
      simpa using this
    · simpa using hx
    · simpa using hy

/-! ## Claims about `MatchedLineInfo::operator<` -/

/-- Claim C2. `MatchedLineInfo::operator<` is a strict weak ordering on results
whose match-flag vectors have length 6: every comparison is defined, no
result precedes itself, the order is asymmetric and transitive, and being
incomparable (neither precedes the other) is transitive. -/
theorem operatorLt_strict_weak_ordering (a b c : MatchedLineInfo)
    (ha : a.matchedChosenPositions.length = 6)
    (hb : b.matchedChosenPositions.length = 6)
    (hc : c.matchedChosenPositions.length = 6) :
    (∃ r, a.lt b = .ok r) ∧
    a.lt a = .ok false ∧
    (a.lt b = .ok true → b.lt a = .ok false) ∧
    (a.lt b = .ok true → b.lt c = .ok true → a.lt c = .ok true) ∧
    (a.lt b = .ok false ∧ b.lt a = .ok false →
      b.lt c = .ok false ∧ c.lt b = .ok false →
      a.lt c = .ok false ∧ c.lt a = .ok false) := by
  have hab : a.matchedChosenPositions.length = b.matchedChosenPositions.length := by omega
  have hbc : b.matchedChosenPositions.length = c.matchedChosenPositions.length := by omega
  have hac : a.matchedChosenPositions.length = c.matchedChosenPositions.length := by omega
  refine ⟨⟨_, lt_eq_keyLt a b hab⟩, ?_, ?_, ?_, ?_⟩
  · rw [lt_false_iff a a rfl]
    exact keyLt_irrefl _
  · rw [lt_true_iff a b hab, lt_false_iff b a hab.symm]
    intro h₁ h₂
    exact keyLt_irrefl _ (keyLt_trans h₁ h₂)
  · rw [lt_true_iff a b hab, lt_true_iff b c hbc, lt_true_iff a c hac]
    exact keyLt_trans
  · rw [lt_false_iff a b hab, lt_false_iff b a hab.symm, lt_false_iff b c hbc,
      lt_false_iff c b hbc.symm, lt_false_iff a c hac, lt_false_iff c a hac.symm]
    rintro ⟨h₁, h₂⟩ ⟨h₃, h₄⟩
    have e₁ : rankKey a = rankKey b := by
      by_contra hne
      rcases keyLt_total hne with h | h
      · exact h₁ h
      · exact h₂ h
    have e₂ : rankKey b = rankKey c := by
      by_contra hne
      rcases keyLt_total hne with h | h
      · exact h₃ h
      · exact h₄ h
    rw [e₁, e₂]
    exact ⟨keyLt_irrefl _, keyLt_irrefl _⟩

/-- Transitivity of claim C2 at three sample results. -/
theorem operatorLt_strict_weak_ordering_witness :
    (sampleInfo [true, true, false, false, false, false] 2 "a.csv" 7).lt
        (sampleInfo [true, false, true, false, false, false] 2 "a.csv" 3) = .ok true ∧
    (sampleInfo [true, false, true, false, false, false] 2 "a.csv" 3).lt
        (sampleInfo [false, false, false, false, false, true] 1 "a.csv" 1) = .ok true ∧
    (sampleInfo [true, true, false, false, false, false] 2 "a.csv" 7).lt
        (sampleInfo [false, false, false, false, false, true] 1 "a.csv" 1) = .ok true :=
  ⟨by decide, by decide,
    (operatorLt_strict_weak_ordering
      (sampleInfo [true, true, false, false, false, false] 2 "a.csv" 7)
      (sampleInfo [true, false, true, false, false, false] 2 "a.csv" 3)
      (sampleInfo [false, false, false, false, false, true] 1 "a.csv" 1)
      (by decide) (by decide) (by decide)).2.2.2.1 (by decide) (by decide)⟩

/-- Claim C3. For results whose match-flag vectors have length 6 the
multi-step comparator and the order of the composite keys
`(-matchCount, -bits, filename, originalLineNumber)` are one relation:
`a < b` returns exactly whether the key of `a` is lexicographically smaller
than the key of `b`, where `bits` reads the flags as a binary number with
position 0 as the most significant bit. -/
theorem operatorLt_eq_key_order (a b : MatchedLineInfo)
    (ha : a.matchedChosenPositions.length = 6)
    (hb : b.matchedChosenPositions.length = 6) :
    a.lt b = .ok (decide (keyLt (rankKey a) (rankKey b))) ∧
    (a.lt b = .ok true ↔ keyLt (rankKey a) (rankKey b)) := by
  have hab : a.matchedChosenPositions.length = b.matchedChosenPositions.length := by omega
  exact ⟨lt_eq_keyLt a b hab, lt_true_iff a b hab⟩

/-- Claim C3 at two sample results: position 0 weighs 32, position 1 weighs 16,
and the key order decides before the file names are looked at. -/
theorem operatorLt_eq_key_order_witness :
    rankKey (sampleInfo [true, false, false, false, false, false] 1 "b.csv" 9)
      = (-1, -32, "b.csv".toList, 9) ∧
    rankKey (sampleInfo [false, true, false, false, false, false] 1 "a.csv" 2)
      = (-1, -16, "a.csv".toList, 2) ∧
    (sampleInfo [true, false, false, false, false, false] 1 "b.csv" 9).lt
        (sampleInfo [false, true, false, false, false, false] 1 "a.csv" 2) = .ok true :=
  ⟨by decide, by decide,
    ((operatorLt_eq_key_order
      (sampleInfo [true, false, false, false, false, false] 1 "b.csv" 9)
      (sampleInfo [false, true, false, false, false, false] 1 "a.csv" 2)
      (by decide) (by decide)).2).mpr (by decide)⟩

/-- Claim C4. Two results whose match-flag vectors have length 6 are equivalent
under `operator<` (neither precedes the other) exactly when their four keys
agree: match count, match flags, file name and line number; `outputString`
plays no part. -/
theorem operatorLt_equivalent_iff (a b : MatchedLineInfo)
    (ha : a.matchedChosenPositions.length = 6)
    (hb : b.matchedChosenPositions.length = 6) :
    (a.lt b = .ok false ∧ b.lt a = .ok false) ↔
      (a.matchCount = b.matchCount ∧
       a.matchedChosenPositions = b.matchedChosenPositions ∧
       a.filename = b.filename ∧
       a.originalLineNumber = b.originalLineNumber) := by
  have hab : a.matchedChosenPositions.length = b.matchedChosenPositions.length := by omega
  rw [lt_false_iff a b hab, lt_false_iff b a hab.symm, ← rankKey_eq_iff a b hab]
  constructor
  · rintro ⟨h₁, h₂⟩
    by_contra hne
    rcases keyLt_total hne with h | h
    · exact h₁ h
    · exact h₂ h
  · intro e
    rw [e]
    exact ⟨keyLt_irrefl _, keyLt_irrefl _⟩

/-- Claim C4 at two sample results that differ in `outputString` only. -/
theorem operatorLt_equivalent_iff_witness :
    ({ sampleInfo [true, false, false, false, false, true] 2 "a.csv" 4 with
        outputString := "x".toList } : MatchedLineInfo).lt
      ({ sampleInfo [true, false, false, false, false, true] 2 "a.csv" 4 with
        outputString := "y".toList } : MatchedLineInfo) = .ok false ∧
    ({ sampleInfo [true, false, false, false, false, true] 2 "a.csv" 4 with
        outputString := "y".toList } : MatchedLineInfo).lt
      ({ sampleInfo [true, false, false, false, false, true] 2 "a.csv" 4 with
        outputString := "x".toList } : MatchedLineInfo) = .ok false :=
  (operatorLt_equivalent_iff
    { sampleInfo [true, false, false, false, false, true] 2 "a.csv" 4 with
        outputString := "x".toList }
    { sampleInfo [true, false, false, false, false, true] 2 "a.csv" 4 with
        outputString := "y".toList }
    (by decide) (by decide)).mpr ⟨by decide, by decide, by decide, by decide⟩

/-- Claim C6. Leftmost-position priority: when two results with length-6 flag
vectors have equal match counts and their flags first differ at index `k`,
the one with `true` there precedes the other and is not preceded by it,
whatever the file names and line numbers; in particular a result that
matched position 0 precedes one that did not. -/
theorem operatorLt_leftmost_priority (a b : MatchedLineInfo)
    (ha : a.matchedChosenPositions.length = 6)
    (hb : b.matchedChosenPositions.length = 6)
    (hcount : a.matchCount = b.matchCount) :
    (∀ k : Nat,
        (∀ j : Nat, j < k → a.matchedChosenPositions[j]? = b.matchedChosenPositions[j]?) →
        a.matchedChosenPositions[k]? = some true →
        b.matchedChosenPositions[k]? = some false →
        a.lt b = .ok true ∧ b.lt a = .ok false) ∧
    (a.matchedChosenPositions[0]? = some true →
        b.matchedChosenPositions[0]? = some false →
        a.lt b = .ok true ∧ b.lt a = .ok false) := by
  have hab : a.matchedChosenPositions.length = b.matchedChosenPositions.length := by omega
  have key : ∀ k : Nat,
        (∀ j : Nat, j < k → a.matchedChosenPositions[j]? = b.matchedChosenPositions[j]?) →
        a.matchedChosenPositions[k]? = some true →
        b.matchedChosenPositions[k]? = some false →
        a.lt b = .ok true ∧ b.lt a = .ok false := by
    intro k hp hx hy
    have hd := firstDifference_of_agreement k _ _ hp hx hy
    have hbits := (firstDifference_some _ _ true hab hd).1 rfl
    have h₁ : keyLt (rankKey a) (rankKey b) := by
      simp only [keyLt, rankKey]
      exact Or.inr ⟨by omega, Or.inl (by omega)⟩
    refine ⟨(lt_true_iff a b hab).mpr h₁, (lt_false_iff b a hab.symm).mpr ?_⟩
    intro h₂
    exact keyLt_irrefl _ (keyLt_trans h₁ h₂)
  exact ⟨key, fun hx hy => key 0 (fun j (hj : j < 0) => absurd hj (Nat.not_lt_zero j)) hx hy⟩

/-- Claim C6 at two sample results: a match at position 0 wins against a match
at position 1 although its file name and line number are larger. -/
theorem operatorLt_leftmost_priority_witness :
    (sampleInfo [true, false, false, false, false, false] 1 "z.csv" 900).lt
        (sampleInfo [false, true, false, false, false, false] 1 "a.csv" 1) = .ok true ∧
    (sampleInfo [false, true, false, false, false, false] 1 "a.csv" 1).lt
        (sampleInfo [true, false, false, false, false, false] 1 "z.csv" 900) = .ok false :=
  (operatorLt_leftmost_priority
    (sampleInfo [true, false, false, false, false, false] 1 "z.csv" 900)
    (sampleInfo [false, true, false, false, false, false] 1 "a.csv" 1)
    (by decide) (by decide) (by decide)).2 (by decide) (by decide)

/-! ## The loop over the value fields, round by round -/

theorem stepState_length (fields : List CppString) (chosenNumbers : List Int) (p : Nat)
    (st : LoopState) :
    (stepState fields chosenNumbers p st).lineMatchedChosenPositions.length
      = st.lineMatchedChosenPositions.length := by
  unfold stepState
  split <;> simp

theorem loopBody_eq (fields : List CppString) (chosenNumbers : List Int) (p : Nat)
    (st : LoopState) (hp : p + 1 < fields.length)
    (hlen : st.lineMatchedChosenPositions.length = chosenNumbers.length) :
    loopBody fields chosenNumbers (p + 1) st = .ok (stepState fields chosenNumbers p st) := by
  unfold loopBody stepState fieldToken positionMatches parsedValue
  simp only [List.getElem?_eq_getElem hp, Nat.add_sub_cancel]
  cases hs : stoi fields[p + 1] with
  | error e => simp
  | ok v =>
    simp only
    by_cases hc : p < chosenNumbers.length
    · simp only [hc, if_true, List.getElem?_eq_getElem hc]
      by_cases hv : v = chosenNumbers[p]
      · have hf : p < st.lineMatchedChosenPositions.length := by omega
        simp [hv, hf, List.append_assoc]
      · simp [hv, List.append_assoc]
    · have : chosenNumbers[p]? = none := List.getElem?_eq_none (by omega)
      simp [hc, this, List.append_assoc]

theorem stepState_of_missing (fields : List CppString) (chosenNumbers : List Int) (p : Nat)
    (st : LoopState) (hp : fields.length ≤ p + 1) :
    stepState fields chosenNumbers p st = st := by
  have : fields[p + 1]? = none := List.getElem?_eq_none hp
  simp [stepState, fieldToken, positionMatches, parsedValue, this]

theorem stepsFrom_of_missing (fields : List CppString) (chosenNumbers : List Int) :
    ∀ (n p : Nat) (st : LoopState), fields.length ≤ p + 1 →
      stepsFrom fields chosenNumbers n p st = st
  | 0, _, _, _ => rfl
  | n + 1, p, st, hp => by
    rw [stepsFrom, stepState_of_missing fields chosenNumbers p st hp]
    exact stepsFrom_of_missing fields chosenNumbers n (p + 1) st (by omega)

/-- The loop over the value fields never faults and performs the six steps of
`stepsFrom`; rounds for missing fields change nothing. -/
theorem fieldLoop_eq (fields : List CppString) (chosenNumbers : List Int) :
    ∀ (fuel p : Nat) (st : LoopState), p + fuel = 6 →
      st.lineMatchedChosenPositions.length = chosenNumbers.length →
      fieldLoop fields chosenNumbers fuel (p + 1) st
        = .ok (stepsFrom fields chosenNumbers fuel p st)
  | 0, _, _, _, _ => rfl
  | fuel + 1, p, st, hp, hlen => by
    unfold fieldLoop
    by_cases hf : p + 1 < fields.length
    · have hc : p + 1 ≤ 6 ∧ p + 1 < fields.length := ⟨by omega, hf⟩
      simp only [hc, and_self, if_true, loopBody_eq fields chosenNumbers p st hf hlen]
      rw [stepsFrom]
      exact fieldLoop_eq fields chosenNumbers fuel (p + 1) _ (by omega)
        (by rw [stepState_length]; exact hlen)
    · have hc : ¬ (p + 1 ≤ 6 ∧ p + 1 < fields.length) := fun h => hf h.2
      simp only [hc, if_false]
      rw [stepsFrom_of_missing fields chosenNumbers (fuel + 1) p st (by omega)]

/-! ## What the loop leaves in its three variables -/

theorem stepsFrom_count (fields : List CppString) (chosenNumbers : List Int) :
    ∀ (n p : Nat) (st : LoopState),
      (stepsFrom fields chosenNumbers n p st).currentPositionalMatchCount
        = st.currentPositionalMatchCount
          + (((List.range' p n).countP (positionMatches fields chosenNumbers) : Nat) : Int)
  | 0, _, _ => by simp [stepsFrom]
  | n + 1, p, st => by
    rw [stepsFrom, stepsFrom_count fields chosenNumbers n (p + 1), List.range'_succ,
      List.countP_cons]
    simp only [stepState]
    split <;> push_cast <;> omega

theorem stepsFrom_output (fields : List CppString) (chosenNumbers : List Int) :
    ∀ (n p : Nat) (st : LoopState),
      (stepsFrom fields chosenNumbers n p st).numbersOutput
        = st.numbersOutput
          ++ ((List.range' p n).map (fieldToken fields chosenNumbers)).flatten
  | 0, _, _ => by simp [stepsFrom]
  | n + 1, p, st => by
    rw [stepsFrom, stepsFrom_output fields chosenNumbers n (p + 1), List.range'_succ]
    simp [stepState, List.append_assoc]

theorem stepsFrom_length (fields : List CppString) (chosenNumbers : List Int) :
    ∀ (n p : Nat) (st : LoopState),
      (stepsFrom fields chosenNumbers n p st).lineMatchedChosenPositions.length
        = st.lineMatchedChosenPositions.length
  | 0, _, _ => rfl
  | n + 1, p, st => by
    rw [stepsFrom, stepsFrom_length fields chosenNumbers n (p + 1), stepState_length]

theorem stepsFrom_flag (fields : List CppString) (chosenNumbers : List Int) :
    ∀ (n p : Nat) (st : LoopState) (q : Nat), q < st.lineMatchedChosenPositions.length →
      (stepsFrom fields chosenNumbers n p st).lineMatchedChosenPositions[q]?
        = some ((st.lineMatchedChosenPositions.getD q false)
            || (decide (p ≤ q ∧ q < p + n) && positionMatches fields chosenNumbers q))
  | 0, p, st, q, hq => by
    have : ¬ (p ≤ q ∧ q < p + 0) := by omega
    simp [stepsFrom, this, List.getD_eq_getElem?_getD, List.getElem?_eq_getElem hq]
  | n + 1, p, st, q, hq => by
    rw [stepsFrom, stepsFrom_flag fields chosenNumbers n (p + 1) _ q
      (by rw [stepState_length]; exact hq)]
    congr 1
    simp only [stepState, List.getD_eq_getElem?_getD]
    by_cases hpq : p = q
    · subst hpq
      have h1 : ¬ (p + 1 ≤ p ∧ p < p + 1 + n) := by omega
      have h2 : p ≤ p ∧ p < p + (n + 1) := by omega
      cases hm : positionMatches fields chosenNumbers p
      · simp [h1]
      · simp [h1, h2, List.getElem?_set_self hq]
    · have h3 : (p + 1 ≤ q ∧ q < p + 1 + n) ↔ (p ≤ q ∧ q < p + (n + 1)) := by omega
      cases hm : positionMatches fields chosenNumbers p
      · simp [h3]
      · simp [h3, List.getElem?_set_ne hpq]

/-! ## One line of `processCsvFile` in closed form -/

theorem final_flags (fields : List CppString) (chosenNumbers : List Int) :
    (stepsFrom fields chosenNumbers 6 0 (initialState chosenNumbers)).lineMatchedChosenPositions
      = (List.range chosenNumbers.length).map
          (fun q => decide (q < 6) && positionMatches fields chosenNumbers q) := by
  apply List.ext_getElem?
  intro q
  by_cases hq : q < chosenNumbers.length
  · rw [stepsFrom_flag fields chosenNumbers 6 0 _ q (by simpa [initialState] using hq)]
    simp [initialState, List.getElem?_range hq, hq]
  · have h1 : (stepsFrom fields chosenNumbers 6 0
        (initialState chosenNumbers)).lineMatchedChosenPositions.length ≤ q := by
      rw [stepsFrom_length]; simp [initialState]; omega
    rw [List.getElem?_eq_none h1, List.getElem?_eq_none (by simp; omega)]

theorem final_count (fields : List CppString) (chosenNumbers : List Int) :
    (stepsFrom fields chosenNumbers 6 0 (initialState chosenNumbers)).currentPositionalMatchCount
      = (matchTotal fields chosenNumbers : Nat) := by
  rw [stepsFrom_count, matchTotal, List.range_eq_range']
  simp [initialState]

theorem final_output (fields : List CppString) (chosenNumbers : List Int) :
    (stepsFrom fields chosenNumbers 6 0 (initialState chosenNumbers)).numbersOutput
      = ((List.range 6).map (fieldToken fields chosenNumbers)).flatten := by
  rw [stepsFrom_output, List.range_eq_range']
  simp [initialState]

theorem matchTotal_nil (chosenNumbers : List Int) : matchTotal [] chosenNumbers = 0 := by
  simp [matchTotal, List.countP_eq_zero, positionMatches, parsedValue]

/-- One round of the line loop never faults; it produces `expectedInfo` unless
the line is skipped or has no positional match. -/
theorem processLine_eq (filename : CppString) (chosenNumbers : List Int) (lineNumber : Int)
    (line : CppString) :
    processLine filename chosenNumbers lineNumber line
      = .ok (if isSkipped line = true ∨ matchTotal (split line ';') chosenNumbers = 0 then none
             else some (expectedInfo filename chosenNumbers lineNumber line)) := by
  cases line with
  | nil => simp [processLine, isSkipped]
  | cons c cs =>
    by_cases hc : isalpha c = true
    · simp [processLine, isSkipped, hc]
    · simp only [processLine, isSkipped, hc, Bool.false_eq_true, if_false, false_or]
      cases hf : split (c :: cs) ';' with
      | nil => simp [matchTotal_nil]
      | cons first rest =>
        simp only
        have hloop := fieldLoop_eq (first :: rest) chosenNumbers 6 0
          (initialState chosenNumbers) (by omega) (by simp [initialState])
        simp only [initialState, Nat.zero_add] at hloop
        rw [hloop]
        have h1 := final_count (first :: rest) chosenNumbers
        have h2 := final_output (first :: rest) chosenNumbers
        have h3 := final_flags (first :: rest) chosenNumbers
        simp only [initialState] at h1 h2 h3
        simp only [h1, h2, h3]
        by_cases hz : matchTotal (first :: rest) chosenNumbers = 0
        · simp [hz]
        · have hpos : ((matchTotal (first :: rest) chosenNumbers : Nat) : Int) > 0 := by
            omega
          simp only [hpos, if_true, hz, if_false]
          simp [expectedInfo, hf, dateLabel]

/-! ## Results of a line, of a file and of all files -/

theorem positionMatches_iff (fields : List CppString) (chosenNumbers : List Int) (p : Nat) :
    positionMatches fields chosenNumbers p = true ↔
      ∃ field value, fields[p + 1]? = some field ∧ stoi field = .ok value ∧
        chosenNumbers[p]? = some value := by
  unfold positionMatches parsedValue
  cases hf : fields[p + 1]? with
  | none => simp
  | some field =>
    cases hs : stoi field with
    | error e => simp [hs]
    | ok v =>
      cases hc : chosenNumbers[p]? with
      | none => simp [hs]
      | some c =>
        simp only [hs, decide_eq_true_eq, Option.some.injEq]
        constructor
        · intro h; exact ⟨field, v, rfl, hs, by rw [h]⟩
        · rintro ⟨w, u, hw, hu, hcu⟩
          rw [← hw, hs] at hu
          rw [Except.ok.injEq] at hu
          rw [hu, hcu]

theorem matchTotal_pos_iff (fields : List CppString) (chosenNumbers : List Int) :
    matchTotal fields chosenNumbers ≠ 0 ↔
      ∃ p, p < 6 ∧ positionMatches fields chosenNumbers p = true := by
  unfold matchTotal
  rw [Ne, List.countP_eq_zero]
  simp only [List.mem_range, not_forall, Bool.not_eq_true, exists_prop]
  constructor
  · rintro ⟨p, hp, hm⟩; exact ⟨p, hp, by simpa using hm⟩
  · rintro ⟨p, hp, hm⟩; exact ⟨p, hp, by simpa using hm⟩

theorem processLine_some_iff (filename : CppString) (chosenNumbers : List Int)
    (lineNumber : Int) (line : CppString) (info : MatchedLineInfo) :
    processLine filename chosenNumbers lineNumber line = .ok (some info) ↔
      (isSkipped line = false ∧ matchTotal (split line ';') chosenNumbers ≠ 0 ∧
        info = expectedInfo filename chosenNumbers lineNumber line) := by
  rw [processLine_eq]
  by_cases h : isSkipped line = true ∨ matchTotal (split line ';') chosenNumbers = 0
  · simp only [h, if_true]
    constructor
    · intro h'; simp at h'
    · rintro ⟨h1, h2, _⟩
      rcases h with h | h
      · rw [h1] at h; simp at h
      · exact absurd h h2
  · simp only [h, if_false, Except.ok.injEq, Option.some.injEq]
    have h1 : isSkipped line = false := by
      cases hs : isSkipped line
      · rfl
      · exact absurd (Or.inl hs) h
    have h2 : matchTotal (split line ';') chosenNumbers ≠ 0 := fun e => h (Or.inr e)
    constructor
    · intro e; exact ⟨h1, h2, e.symm⟩
    · rintro ⟨_, _, e⟩; exact e.symm

theorem processLines_forall (P : MatchedLineInfo → Prop) (filename : CppString)
    (chosenNumbers : List Int)
    (hP : ∀ n line info, processLine filename chosenNumbers n line = .ok (some info) → P info) :
    ∀ (lines : List CppString) (n : Int) (acc : List MatchedLineInfo),
      (∀ r ∈ acc, P r) →
      ∃ res, processLines filename chosenNumbers n lines acc = .ok res ∧ ∀ r ∈ res, P r
  | [], n, acc, hacc => ⟨acc, rfl, hacc⟩
  | line :: rest, n, acc, hacc => by
    unfold processLines
    have hl := processLine_eq filename chosenNumbers (n + 1) line
    cases hr : processLine filename chosenNumbers (n + 1) line with
    | error e => rw [hr] at hl; simp at hl
    | ok o =>
      cases o with
      | none => exact processLines_forall P filename chosenNumbers hP rest (n + 1) acc hacc
      | some info =>
        apply processLines_forall P filename chosenNumbers hP rest (n + 1) (acc ++ [info])
        intro r hr'
        rcases List.mem_append.mp hr' with h | h
        · exact hacc r h
        · rw [List.mem_singleton.mp h]; exact hP _ _ _ hr

theorem processCsvFile_forall (P : MatchedLineInfo → Prop) (filename : CppString)
    (chosenNumbers : List Int)
    (hP : ∀ n line info, processLine filename chosenNumbers n line = .ok (some info) → P info)
    (file : Option (List CppString)) :
    ∃ res, processCsvFile file filename chosenNumbers = .ok res ∧ ∀ r ∈ res, P r := by
  cases file with
  | none => exact ⟨[], rfl, by simp⟩
  | some lines =>
    exact processLines_forall P filename chosenNumbers hP lines 0 [] (by simp)

theorem collectMatchedLines_forall (P : MatchedLineInfo → Prop) (chosenNumbers : List Int)
    (hP : ∀ filename n line info,
      processLine filename chosenNumbers n line = .ok (some info) → P info)
    (openFile : CppString → Option (List CppString)) :
    ∀ (csvFiles : List CppString) (acc : List MatchedLineInfo), (∀ r ∈ acc, P r) →
      ∃ all, collectMatchedLines openFile chosenNumbers csvFiles acc = .ok all ∧
        ∀ r ∈ all, P r
  | [], acc, hacc => ⟨acc, rfl, hacc⟩
  | filename :: rest, acc, hacc => by
    unfold collectMatchedLines
    obtain ⟨res, hres, hall⟩ :=
      processCsvFile_forall P filename chosenNumbers (hP filename) (openFile filename)
    rw [hres]
    apply collectMatchedLines_forall P chosenNumbers hP openFile rest (acc ++ res)
    intro r hr
    rcases List.mem_append.mp hr with h | h
    · exact hacc r h
    · exact hall r h

theorem matchCount_pos (filename : CppString) (chosenNumbers : List Int) (n : Int)
    (line : CppString) (info : MatchedLineInfo)
    (h : processLine filename chosenNumbers n line = .ok (some info)) :
    1 ≤ info.matchCount := by
  obtain ⟨_, h2, h3⟩ := (processLine_some_iff _ _ _ _ _).mp h
  rw [h3]
  simp only [expectedInfo]
  omega

/-! ## The fuel of the loops is never used up -/

/-- More fuel than six rounds does not change the loop over the value fields. -/
theorem fieldLoop_fuel (fields : List CppString) (chosenNumbers : List Int) :
    ∀ (fuel p extra : Nat) (st : LoopState), p + fuel = 6 →
      fieldLoop fields chosenNumbers (fuel + extra) (p + 1) st
        = fieldLoop fields chosenNumbers fuel (p + 1) st
  | 0, p, 0, _, _ => rfl
  | 0, p, extra + 1, st, hp => by
    have : ¬ (p + 1 ≤ 6 ∧ p + 1 < fields.length) := by omega
    simp only [Nat.zero_add, fieldLoop, this, if_false]
  | fuel + 1, p, extra, st, hp => by
    have e : fuel + 1 + extra = (fuel + extra) + 1 := by omega
    rw [e]
    unfold fieldLoop
    split
    · cases loopBody fields chosenNumbers (p + 1) st with
      | error e => rfl
      | ok st' => exact fieldLoop_fuel fields chosenNumbers fuel (p + 1) extra st' (by omega)
    · rfl

theorem getline_rest_length (stream token rest : CppString) (delimiter : Char)
    (h : getline stream delimiter = some (token, rest)) : rest.length < stream.length := by
  cases stream with
  | nil => simp [getline] at h
  | cons c cs =>
    simp only [getline, Option.some.injEq, Prod.mk.injEq] at h
    rw [← h.2, List.length_drop]
    have := (List.dropWhile_sublist (l := c :: cs) (fun x => x != delimiter)).length_le
    simp only [List.length_cons] at this ⊢
    omega

/-- More fuel than the length of the stream plus one does not change `split`. -/
theorem splitLoop_fuel (delimiter : Char) :
    ∀ (fuel extra : Nat) (stream : CppString) (tokens : List CppString),
      stream.length < fuel →
      splitLoop delimiter (fuel + extra) stream tokens = splitLoop delimiter fuel stream tokens
  | 0, _, _, _, h => absurd h (Nat.not_lt_zero _)
  | fuel + 1, extra, stream, tokens, h => by
    have e : fuel + 1 + extra = (fuel + extra) + 1 := by omega
    rw [e]
    unfold splitLoop
    cases hg : getline stream delimiter with
    | none => rfl
    | some tr =>
      obtain ⟨token, rest⟩ := tr
      have := getline_rest_length stream token rest delimiter hg
      exact splitLoop_fuel delimiter fuel extra rest _ (by omega)

/-! ## Leaving out a position that contributes nothing -/

theorem countP_filter_ne (f : Nat → Bool) (p : Nat) (hp : f p = false) :
    ∀ l : List Nat, l.countP f = (l.filter (fun q => decide (q ≠ p))).countP f
  | [] => rfl
  | a :: l => by
    by_cases ha : a = p
    · subst ha
      simp [List.countP_cons, hp, countP_filter_ne f a hp l]
    · simp [List.countP_cons, ha, List.filter_cons, countP_filter_ne f p hp l]

theorem flatten_map_filter_ne (f : Nat → CppString) (p : Nat) (hp : f p = []) :
    ∀ l : List Nat,
      (l.map f).flatten = ((l.filter (fun q => decide (q ≠ p))).map f).flatten
  | [] => rfl
  | a :: l => by
    by_cases ha : a = p
    · subst ha
      simp [hp, flatten_map_filter_ne f a hp l]
    · simp [ha, List.filter_cons, flatten_map_filter_ne f p hp l]

theorem flag_of_result (filename : CppString) (chosenNumbers : List Int) (lineNumber : Int)
    (line : CppString) (info : MatchedLineInfo)
    (h : processLine filename chosenNumbers lineNumber line = .ok (some info))
    (q : Nat) (hq6 : q < 6) (hq : q < chosenNumbers.length) :
    info.matchedChosenPositions[q]?
      = some (positionMatches (split line ';') chosenNumbers q) := by
  obtain ⟨_, _, h3⟩ := (processLine_some_iff _ _ _ _ _).mp h
  rw [h3]
  simp [expectedInfo, List.getElem?_range hq, hq6, hq]

/-! ## Claims about `processCsvFile` -/

/-- Claim C1. For a chosen-number vector `C` of length 6 and a line for which
`processCsvFile` produces a result, `matchCount` is the number of positions
`i` in 0..5 whose field `i + 1` exists, is accepted by `std::stoi` and
equals `C[i]`, and flag `i` is true exactly for those positions; the
position is the ordinal index of the field. The two scenario lines give
match count 6 with all flags true, and match count 4 with flags
`[true, false, true, false, true, true]`. -/
theorem processLine_positional_match :
    (∀ (filename : CppString) (C : List Int) (lineNumber : Int) (line : CppString)
        (info : MatchedLineInfo),
      C.length = 6 →
      processLine filename C lineNumber line = .ok (some info) →
        info.matchCount
          = (((List.range 6).countP (positionMatches (split line ';') C) : Nat) : Int) ∧
        (∀ i : Nat, i < 6 →
          info.matchedChosenPositions[i]? = some (positionMatches (split line ';') C i)) ∧
        (∀ i : Nat, i < 6 →
          (info.matchedChosenPositions[i]? = some true ↔
            ∃ field value, (split line ';')[i + 1]? = some field ∧
              stoi field = .ok value ∧ C[i]? = some value))) ∧
    (∀ (filename : CppString) (lineNumber : Int),
      ∃ info,
        processLine filename mainChosenNumbers lineNumber scenarioLine1 = .ok (some info) ∧
        info.matchCount = 6 ∧
        info.matchedChosenPositions = [true, true, true, true, true, true]) ∧
    (∀ (filename : CppString) (lineNumber : Int),
      ∃ info,
        processLine filename mainChosenNumbers lineNumber scenarioLine2 = .ok (some info) ∧
        info.matchCount = 4 ∧
        info.matchedChosenPositions = [true, false, true, false, true, true]) := by
  refine ⟨?_, ?_, ?_⟩
  · intro filename C lineNumber line info hC h
    have hflag : ∀ i : Nat, i < 6 →
        info.matchedChosenPositions[i]? = some (positionMatches (split line ';') C i) :=
      fun i hi => flag_of_result filename C lineNumber line info h i hi (by omega)
    refine ⟨?_, hflag, ?_⟩
    · obtain ⟨_, _, h3⟩ := (processLine_some_iff _ _ _ _ _).mp h
      rw [h3]
      rfl
    · intro i hi
      rw [hflag i hi, Option.some.injEq, positionMatches_iff]
  · intro filename lineNumber
    refine ⟨expectedInfo filename mainChosenNumbers lineNumber scenarioLine1,
      (processLine_some_iff _ _ _ _ _).mpr ⟨by decide, by decide, rfl⟩, ?_, ?_⟩
    · have : matchTotal (split scenarioLine1 ';') mainChosenNumbers = 6 := by decide
      simp [expectedInfo, this]
    · show (List.range mainChosenNumbers.length).map
        (fun q => decide (q < 6) && positionMatches (split scenarioLine1 ';') mainChosenNumbers q)
          = [true, true, true, true, true, true]
      decide
  · intro filename lineNumber
    refine ⟨expectedInfo filename mainChosenNumbers lineNumber scenarioLine2,
      (processLine_some_iff _ _ _ _ _).mpr ⟨by decide, by decide, rfl⟩, ?_, ?_⟩
    · have : matchTotal (split scenarioLine2 ';') mainChosenNumbers = 4 := by decide
      simp [expectedInfo, this]
    · show (List.range mainChosenNumbers.length).map
        (fun q => decide (q < 6) && positionMatches (split scenarioLine2 ';') mainChosenNumbers q)
          = [true, false, true, false, true, true]
      decide

/-- Claim C1 at the line of scenario 2. -/
theorem processLine_positional_match_witness :
    mainChosenNumbers.length = 6 ∧
    processLine "a.csv".toList mainChosenNumbers 1 scenarioLine2
      = .ok (some (expectedInfo "a.csv".toList mainChosenNumbers 1 scenarioLine2)) ∧
    (expectedInfo "a.csv".toList mainChosenNumbers 1 scenarioLine2).matchCount
      = (((List.range 6).countP
          (positionMatches (split scenarioLine2 ';') mainChosenNumbers) : Nat) : Int) :=
  ⟨by decide, by decide,
    (processLine_positional_match.1 "a.csv".toList mainChosenNumbers 1 scenarioLine2
      (expectedInfo "a.csv".toList mainChosenNumbers 1 scenarioLine2)
      (by decide) (by decide)).1⟩

/-- Claim C5. For every chosen-number vector (the program's has length 6),
processing a line yields one result when the line is not skipped and at least one of its
fields 1..6 parses to the chosen number of the same position, and yields no
result otherwise; so every result of a line, of the list of a file, of the
combined list and of any sorted rearrangement of it has `matchCount >= 1`. -/
theorem processLine_result_iff_match (chosenNumbers : List Int) :
    (∀ (filename : CppString) (lineNumber : Int) (line : CppString),
      (isSkipped line = false ∧
          ∃ p, p < 6 ∧ positionMatches (split line ';') chosenNumbers p = true) →
        ∃ info, processLine filename chosenNumbers lineNumber line = .ok (some info)) ∧
    (∀ (filename : CppString) (lineNumber : Int) (line : CppString),
      ¬ (isSkipped line = false ∧
          ∃ p, p < 6 ∧ positionMatches (split line ';') chosenNumbers p = true) →
        processLine filename chosenNumbers lineNumber line = .ok none) ∧
    (∀ (filename : CppString) (lineNumber : Int) (line : CppString) (info : MatchedLineInfo),
      processLine filename chosenNumbers lineNumber line = .ok (some info) →
        1 ≤ info.matchCount) ∧
    (∀ (file : Option (List CppString)) (filename : CppString),
      ∃ res, processCsvFile file filename chosenNumbers = .ok res ∧
        ∀ r ∈ res, 1 ≤ r.matchCount) ∧
    (∀ (openFile : CppString → Option (List CppString)) (csvFiles : List CppString),
      ∃ all, collectMatchedLines openFile chosenNumbers csvFiles [] = .ok all ∧
        (∀ r ∈ all, 1 ≤ r.matchCount) ∧
        ∀ sorted, StdSortPost all sorted → ∀ r ∈ sorted, 1 ≤ r.matchCount) := by
  refine ⟨?_, ?_, ?_, ?_, ?_⟩
  · rintro filename lineNumber line ⟨hs, hm⟩
    exact ⟨_, (processLine_some_iff _ _ _ _ _).mpr
      ⟨hs, (matchTotal_pos_iff _ _).mpr hm, rfl⟩⟩
  · intro filename lineNumber line hn
    rw [processLine_eq]
    have : isSkipped line = true ∨ matchTotal (split line ';') chosenNumbers = 0 := by
      by_contra hcon
      push_neg at hcon
      apply hn
      refine ⟨by simpa using hcon.1, (matchTotal_pos_iff _ _).mp hcon.2⟩
    simp [this]
  · intro filename lineNumber line info h
    exact matchCount_pos _ _ _ _ _ h
  · intro file filename
    exact processCsvFile_forall (fun r => 1 ≤ r.matchCount) filename chosenNumbers
      (fun n line info h => matchCount_pos _ _ _ _ _ h) file
  · intro openFile csvFiles
    obtain ⟨all, hall, hP⟩ := collectMatchedLines_forall (fun r => 1 ≤ r.matchCount)
      chosenNumbers (fun filename n line info h => matchCount_pos _ _ _ _ _ h)
      openFile csvFiles [] (by simp)
    refine ⟨all, hall, hP, ?_⟩
    intro sorted hs r hr
    exact hP r (hs.1.mem_iff.mp hr)

/-- Claim C5 at a line without a match, at a line with one match, and at the
sorted output of the sample directory. -/
theorem processLine_result_iff_match_witness :
    processLine "a.csv".toList mainChosenNumbers 3 ";1;2;3;4;5;6".toList = .ok none ∧
    processLine "a.csv".toList mainChosenNumbers 2 "2024-01-01;1;6;3".toList
      = .ok (some sampleResult2) ∧
    1 ≤ sampleResult2.matchCount ∧
    collectMatchedLines sampleFiles mainChosenNumbers ["a.csv".toList, "b.csv".toList] []
      = .ok [sampleResult2, sampleResult4] ∧
    StdSortPost [sampleResult2, sampleResult4] [sampleResult4, sampleResult2] ∧
    ∀ r ∈ [sampleResult4, sampleResult2], 1 ≤ r.matchCount := by
  refine ⟨by decide, by decide, ?_, by decide, by decide, ?_⟩
  · exact (processLine_result_iff_match mainChosenNumbers).2.2.1 "a.csv".toList 2
      "2024-01-01;1;6;3".toList sampleResult2 (by decide)
  · obtain ⟨all, hall, _, hsorted⟩ :=
      (processLine_result_iff_match mainChosenNumbers).2.2.2.2 sampleFiles
        ["a.csv".toList, "b.csv".toList]
    have hcollect :
        collectMatchedLines sampleFiles mainChosenNumbers ["a.csv".toList, "b.csv".toList] []
          = .ok [sampleResult2, sampleResult4] := by decide
    rw [hcollect] at hall
    have hEq : all = [sampleResult2, sampleResult4] := (Except.ok.inj hall).symm
    subst hEq
    exact hsorted [sampleResult4, sampleResult2] (by decide)

/-- Claim C7. A line that is empty or whose first character is alphabetic
produces no result and no error, whatever else it contains, and leaves the
list of its file as it was. -/
theorem skipped_line_produces_nothing (filename : CppString) (chosenNumbers : List Int)
    (lineNumber : Int) (line : CppString)
    (h : line = [] ∨ ∃ c rest, line = c :: rest ∧ isalpha c = true) :
    processLine filename chosenNumbers lineNumber line = .ok none ∧
    ∀ (n : Int) (rest : List CppString) (matchedLinesForFile : List MatchedLineInfo),
      processLines filename chosenNumbers n (line :: rest) matchedLinesForFile
        = processLines filename chosenNumbers (n + 1) rest matchedLinesForFile := by
  have hskip : isSkipped line = true := by
    rcases h with h | ⟨c, rest, h, hc⟩
    · rw [h]; rfl
    · rw [h]; exact hc
  have key : ∀ n, processLine filename chosenNumbers n line = .ok none := by
    intro n
    rw [processLine_eq]
    simp [hskip]
  refine ⟨key lineNumber, ?_⟩
  intro n rest acc
  rw [processLines, key (n + 1)]

/-- Claim C7 at a line whose six value fields all match but which starts with
a letter. -/
theorem skipped_line_produces_nothing_witness :
    (List.range 6).all (positionMatches (split "x;4;6;8;18;21;26".toList ';')
      mainChosenNumbers) = true ∧
    processLine "a.csv".toList mainChosenNumbers 1 "x;4;6;8;18;21;26".toList = .ok none :=
  ⟨by decide,
    (skipped_line_produces_nothing "a.csv".toList mainChosenNumbers 1
      "x;4;6;8;18;21;26".toList
      (Or.inr ⟨'x', ";4;6;8;18;21;26".toList, by decide, by decide⟩)).1⟩

/-- Claim C8 as stated fails. The field `4x` is not an integer, yet `std::stoi`
reads it as 4, so on the line `2024-01-01;4x;6;8;18;21;26` position 0 is
marked matched and counted. -/
theorem malformed_field_counterexample :
    ¬ (∀ (chosenNumbers : List Int) (line field : CppString) (p : Nat)
        (info : MatchedLineInfo),
        chosenNumbers.length = 6 → p < 6 →
        (split line ';')[p + 1]? = some field → isIntegerText field = false →
        processLine "a.csv".toList chosenNumbers 1 line = .ok (some info) →
        info.matchedChosenPositions[p]? = some false) := by
  intro h
  have := h mainChosenNumbers "2024-01-01;4x;6;8;18;21;26".toList "4x".toList 0
    (expectedInfo "a.csv".toList mainChosenNumbers 1 "2024-01-01;4x;6;8;18;21;26".toList)
    (by decide) (by decide) (by decide) (by decide) (by decide)
  revert this
  decide

/-- Claim C8, amended. With a chosen-number vector of length 6, a field among
fields 1..6 that `std::stoi` rejects contributes no value: its position is
not marked matched, the match count is the count over the other positions,
and the display string is the label, a space and the tokens of the other
fields only, each matched at its own ordinal position. -/
theorem rejected_field_discarded (filename : CppString) (chosenNumbers : List Int)
    (lineNumber : Int) (line : CppString) (info : MatchedLineInfo) (p : Nat)
    (field : CppString) (e : StoiError)
    (hC : chosenNumbers.length = 6) (hp : p < 6)
    (hfield : (split line ';')[p + 1]? = some field)
    (hstoi : stoi field = .error e)
    (h : processLine filename chosenNumbers lineNumber line = .ok (some info)) :
    info.matchedChosenPositions[p]? = some false ∧
    info.matchCount
      = ((((List.range 6).filter (fun q => decide (q ≠ p))).countP
          (positionMatches (split line ';') chosenNumbers) : Nat) : Int) ∧
    info.outputString
      = ANSI_COLOR_YELLOW ++ dateLabel (split line ';') ++ ANSI_COLOR_RESET ++ [' ']
          ++ (((List.range 6).filter (fun q => decide (q ≠ p))).map
                (fieldToken (split line ';') chosenNumbers)).flatten ∧
    (∀ q : Nat, q < 6 → q ≠ p →
      info.matchedChosenPositions[q]?
        = some (positionMatches (split line ';') chosenNumbers q)) := by
  have hpv : parsedValue (split line ';') p = none := by
    simp [parsedValue, hfield, hstoi]
  have hpm : positionMatches (split line ';') chosenNumbers p = false := by
    simp [positionMatches, hpv]
  have htok : fieldToken (split line ';') chosenNumbers p = [] := by
    simp [fieldToken, hpv]
  obtain ⟨_, _, h3⟩ := (processLine_some_iff _ _ _ _ _).mp h
  refine ⟨?_, ?_, ?_, ?_⟩
  · rw [flag_of_result _ _ _ _ _ h p hp (by omega), hpm]
  · rw [h3]
    simp only [expectedInfo, matchTotal]
    rw [countP_filter_ne _ p hpm]
  · rw [h3]
    simp only [expectedInfo]
    rw [flatten_map_filter_ne _ p htok]
  · intro q hq _
    exact flag_of_result _ _ _ _ _ h q hq (by omega)

/-- The amended claim C8 at the line of scenario 5. -/
theorem rejected_field_discarded_witness :
    stoi "abc".toList = .error .invalid_argument ∧
    (expectedInfo "a.csv".toList mainChosenNumbers 1 scenarioLine5).matchedChosenPositions
      = [true, false, true, true, true, true] ∧
    (expectedInfo "a.csv".toList mainChosenNumbers 1 scenarioLine5).matchCount = 5 ∧
    (expectedInfo "a.csv".toList mainChosenNumbers 1 scenarioLine5).matchedChosenPositions[1]?
      = some false :=
  ⟨by decide, by decide, by decide,
    (rejected_field_discarded "a.csv".toList mainChosenNumbers 1 scenarioLine5
      (expectedInfo "a.csv".toList mainChosenNumbers 1 scenarioLine5) 1 "abc".toList
      .invalid_argument (by decide) (by decide) (by decide) (by decide) (by decide)).1⟩

/-- Claim C9 at the failing input. On the line `2024-01-01;4;abc` the separator
written after the value 4 is followed by no further token, because the field
`abc` is discarded: the display string ends in a space. -/
theorem outputString_trailing_space :
    processLine "a.csv".toList mainChosenNumbers 1 "2024-01-01;4;abc".toList
      = .ok (some
          { outputString := "\x1b[33m2024-01-01\x1b[0m \x1b[32m4\x1b[0m ".toList
            matchCount := 1
            filename := "a.csv".toList
            originalLineNumber := 1
            matchedChosenPositions := [true, false, false, false, false, false] }) ∧
    ("\x1b[33m2024-01-01\x1b[0m \x1b[32m4\x1b[0m ".toList).getLast? = some ' ' := by
  constructor
  · decide
  · decide

/-- Claim C10. Every result of `processCsvFile` has a match-flag vector as long
as the chosen-number vector (6 for the program's vector), however many
fields the line had and however many of them parsed. -/
theorem matchedChosenPositions_length (chosenNumbers : List Int) :
    (∀ (filename : CppString) (lineNumber : Int) (line : CppString) (info : MatchedLineInfo),
      processLine filename chosenNumbers lineNumber line = .ok (some info) →
        info.matchedChosenPositions.length = chosenNumbers.length) ∧
    (∀ (file : Option (List CppString)) (filename : CppString),
      ∃ res, processCsvFile file filename chosenNumbers = .ok res ∧
        ∀ r ∈ res, r.matchedChosenPositions.length = chosenNumbers.length) := by
  have key : ∀ (filename : CppString) (lineNumber : Int) (line : CppString)
      (info : MatchedLineInfo),
      processLine filename chosenNumbers lineNumber line = .ok (some info) →
        info.matchedChosenPositions.length = chosenNumbers.length := by
    intro filename lineNumber line info h
    obtain ⟨_, _, h3⟩ := (processLine_some_iff _ _ _ _ _).mp h
    rw [h3]
    simp [expectedInfo]
  refine ⟨key, ?_⟩
  intro file filename
  exact processCsvFile_forall
    (fun r => r.matchedChosenPositions.length = chosenNumbers.length) filename chosenNumbers
    (key filename) file

/-- Claim C10 at a line of two fields and at a line of nine fields. -/
theorem matchedChosenPositions_length_witness :
    (split "2024-01-01;4".toList ';').length = 2 ∧
    (expectedInfo "a.csv".toList mainChosenNumbers 1
        "2024-01-01;4".toList).matchedChosenPositions.length = 6 ∧
    (split "2024-01-01;4;6;8;18;21;26;31;x".toList ';').length = 9 ∧
    (expectedInfo "a.csv".toList mainChosenNumbers 1
        "2024-01-01;4;6;8;18;21;26;31;x".toList).matchedChosenPositions.length = 6 :=
  ⟨by decide,
    (matchedChosenPositions_length mainChosenNumbers).1 "a.csv".toList 1
      "2024-01-01;4".toList _ (by decide),
    by decide,
    (matchedChosenPositions_length mainChosenNumbers).1 "a.csv".toList 1
      "2024-01-01;4;6;8;18;21;26;31;x".toList _ (by decide)⟩

/-! ## Claims about the tie-breaks, the header rule and totality -/

/-- Claim C11. For results with equal match counts and identical match flags
`a < b` holds exactly when the file name of `a` is lexicographically smaller
than that of `b`, or the file names are equal and the line number of `a` is
smaller; a result of `a.csv` so precedes an equal-ranking one of `b.csv`. -/
theorem operatorLt_tie_breaks (a b : MatchedLineInfo)
    (hcount : a.matchCount = b.matchCount)
    (hflags : a.matchedChosenPositions = b.matchedChosenPositions) :
    (a.lt b = .ok true ↔
      (stringLt a.filename b.filename = true ∨
        (a.filename = b.filename ∧ a.originalLineNumber < b.originalLineNumber))) ∧
    (∃ r, a.lt b = .ok r) := by
  have hlen : a.matchedChosenPositions.length = b.matchedChosenPositions.length := by
    rw [hflags]
  refine ⟨?_, ⟨_, lt_eq_keyLt a b hlen⟩⟩
  rw [lt_true_iff a b hlen]
  simp only [keyLt, rankKey]
  constructor
  · intro h
    rcases h with h | ⟨_, h | ⟨_, h⟩⟩
    · omega
    · rw [hflags] at h; omega
    · exact h
  · intro h
    exact Or.inr ⟨by rw [hcount], Or.inr ⟨by rw [hflags], h⟩⟩

/-- Claim C11 at results of `a.csv` and `b.csv` with match count 2 and the
same flags: the one of `a.csv` comes first although its line number is larger. -/
theorem operatorLt_tie_breaks_witness :
    (sampleInfo [true, false, true, false, false, false] 2 "a.csv" 9).lt
        (sampleInfo [true, false, true, false, false, false] 2 "b.csv" 1) = .ok true ∧
    (sampleInfo [true, false, true, false, false, false] 2 "b.csv" 1).lt
        (sampleInfo [true, false, true, false, false, false] 2 "a.csv" 9) = .ok false :=
  ⟨((operatorLt_tie_breaks
      (sampleInfo [true, false, true, false, false, false] 2 "a.csv" 9)
      (sampleInfo [true, false, true, false, false, false] 2 "b.csv" 1)
      (by decide) (by decide)).1).mpr (Or.inl (by decide)),
    by decide⟩

theorem matchTotal_eq_zero_of_unparsed (fields : List CppString) (chosenNumbers : List Int)
    (h : ∀ p : Nat, p < 6 → parsedValue fields p = none) :
    matchTotal fields chosenNumbers = 0 := by
  unfold matchTotal
  rw [List.countP_eq_zero]
  intro p hp
  have := h p (List.mem_range.mp hp)
  simp [positionMatches, this]

/-- Claim C13 as stated fails. The character `#` is not alphabetic, so the
line `#header;x;y;z` is not skipped by the header rule; a line that starts
with `#` and has a matching value produces a result. -/
theorem hash_line_counterexample :
    isalpha '#' = false ∧
    isSkipped scenarioLine4 = false ∧
    processLine "a.csv".toList mainChosenNumbers 1 "#header;4;y;z".toList
      = .ok (some
          { outputString := "\x1b[33m#header\x1b[0m \x1b[32m4\x1b[0m ".toList
            matchCount := 1
            filename := "a.csv".toList
            originalLineNumber := 1
            matchedChosenPositions := [true, false, false, false, false, false] }) := by
  refine ⟨by decide, by decide, by decide⟩

/-- Claim C13, amended. The line `#header;x;y;z` is not skipped by the header
rule: it is split into four fields, `std::stoi` rejects each of its value
fields `x`, `y` and `z`, so no position matches and no record is produced,
whatever the chosen numbers are. -/
theorem hash_line_parsed_without_match :
    isSkipped scenarioLine4 = false ∧
    split scenarioLine4 ';' = ["#header".toList, "x".toList, "y".toList, "z".toList] ∧
    stoi "x".toList = .error .invalid_argument ∧
    stoi "y".toList = .error .invalid_argument ∧
    stoi "z".toList = .error .invalid_argument ∧
    (∀ (filename : CppString) (chosenNumbers : List Int) (lineNumber : Int),
      processLine filename chosenNumbers lineNumber scenarioLine4 = .ok none) := by
  refine ⟨by decide, by decide, by decide, by decide, by decide, ?_⟩
  intro filename chosenNumbers lineNumber
  rw [processLine_eq]
  have h : ∀ p : Nat, p < 6 → parsedValue (split scenarioLine4 ';') p = none := by decide
  simp [matchTotal_eq_zero_of_unparsed _ chosenNumbers h]

/-- Claim C16. Processing a line never fails, for any line and any
chosen-number vector of any length: it ends with no result or with one
result. A field that `std::stoi` rejects leaves the loop state as it was,
the loop over the value fields never indexes out of bounds, and so neither
does the processing of a file or of all files. -/
theorem line_processing_total (chosenNumbers : List Int) :
    (∀ (filename : CppString) (lineNumber : Int) (line : CppString),
      processLine filename chosenNumbers lineNumber line = .ok none ∨
      ∃ info, processLine filename chosenNumbers lineNumber line = .ok (some info)) ∧
    (∀ (fields : List CppString) (i : Nat) (st : LoopState) (field : CppString)
        (e : StoiError),
      fields[i]? = some field → stoi field = .error e →
        loopBody fields chosenNumbers i st = .ok st) ∧
    (∀ fields : List CppString,
      ∃ st, fieldLoop fields chosenNumbers 6 1 (initialState chosenNumbers) = .ok st) ∧
    (∀ (file : Option (List CppString)) (filename : CppString),
      ∃ res, processCsvFile file filename chosenNumbers = .ok res) ∧
    (∀ (openFile : CppString → Option (List CppString)) (csvFiles : List CppString),
      ∃ all, collectMatchedLines openFile chosenNumbers csvFiles [] = .ok all) := by
  refine ⟨?_, ?_, ?_, ?_, ?_⟩
  · intro filename lineNumber line
    rw [processLine_eq]
    by_cases h : isSkipped line = true ∨ matchTotal (split line ';') chosenNumbers = 0
    · left; simp [h]
    · right; exact ⟨expectedInfo filename chosenNumbers lineNumber line, by simp [h]⟩
  · intro fields i st field e hf hs
    simp [loopBody, hf, hs]
  · intro fields
    exact ⟨_, fieldLoop_eq fields chosenNumbers 6 0 (initialState chosenNumbers) (by omega)
      (by simp [initialState])⟩
  · intro file filename
    obtain ⟨res, h, _⟩ := processCsvFile_forall (fun _ => True) filename chosenNumbers
      (fun _ _ _ _ => trivial) file
    exact ⟨res, h⟩
  · intro openFile csvFiles
    obtain ⟨all, h, _⟩ := collectMatchedLines_forall (fun _ => True) chosenNumbers
      (fun _ _ _ _ _ => trivial) openFile csvFiles [] (by simp)
    exact ⟨all, h⟩

/-- Claim C16 at a chosen-number vector of length 1 and a line of nine fields
with empty, non-numeric and out-of-range values. -/
theorem line_processing_total_witness :
    processLine "a.csv".toList [4] 1 "2024;4;x;;99999999999;5;6;7;8".toList
      = .ok (some
          { outputString := "\x1b[33m2024\x1b[0m \x1b[32m4\x1b[0m 5 6".toList
            matchCount := 1
            filename := "a.csv".toList
            originalLineNumber := 1
            matchedChosenPositions := [true] }) ∧
    (processLine "a.csv".toList [] 1 "2024;4;x;;99999999999;5;6;7;8".toList = .ok none ∨
      ∃ info, processLine "a.csv".toList [] 1 "2024;4;x;;99999999999;5;6;7;8".toList
        = .ok (some info)) :=
  ⟨by decide, (line_processing_total []).1 "a.csv".toList 1 _⟩

/-! ## The first field of a line -/

theorem splitLoop_append (delimiter : Char) :
    ∀ (fuel : Nat) (stream : CppString) (tokens : List CppString),
      splitLoop delimiter fuel stream tokens = tokens ++ splitLoop delimiter fuel stream []
  | 0, _, tokens => by simp [splitLoop]
  | fuel + 1, stream, tokens => by
    unfold splitLoop
    cases hg : getline stream delimiter with
    | none => simp
    | some tr =>
      obtain ⟨token, rest⟩ := tr
      simp only
      rw [splitLoop_append delimiter fuel rest (tokens ++ [token]),
        splitLoop_append delimiter fuel rest ([] ++ [token])]
      simp

theorem split_nil (delimiter : Char) : split [] delimiter = [] := by
  simp [split, splitLoop, getline]

theorem split_cons (c : Char) (cs : CppString) (delimiter : Char) :
    ∃ rest, split (c :: cs) delimiter
      = (c :: cs).takeWhile (fun x => x != delimiter) :: rest := by
  unfold split
  rw [List.length_cons, splitLoop]
  simp only [getline]
  rw [splitLoop_append]
  exact ⟨_, rfl⟩

theorem isSkipped_eq_of_head (line : CppString) (hline : line ≠ []) :
    isSkipped line =
      (match (split line ';').head? with
        | some (c :: _) => isalpha c
        | _ => false) := by
  cases line with
  | nil => exact absurd rfl hline
  | cons c cs =>
    obtain ⟨rest, hrest⟩ := split_cons c cs ';'
    rw [hrest]
    simp only [isSkipped, List.head?_cons]
    by_cases hc : c = ';'
    · subst hc
      simp [List.takeWhile]
      decide
    · have : (c != ';') = true := by simpa using hc
      simp [List.takeWhile, this]

theorem parsedValue_eq_of_tail (fields₁ fields₂ : List CppString)
    (h : fields₁.tail = fields₂.tail) (p : Nat) :
    parsedValue fields₁ p = parsedValue fields₂ p := by
  have e : ∀ fields : List CppString, fields[p + 1]? = fields.tail[p]? := by
    intro fields
    cases fields <;> simp
  unfold parsedValue
  rw [e fields₁, e fields₂, h]

theorem positionMatches_eq_of_parsed (fields₁ fields₂ : List CppString)
    (chosenNumbers : List Int) (p : Nat)
    (h : parsedValue fields₁ p = parsedValue fields₂ p) :
    positionMatches fields₁ chosenNumbers p = positionMatches fields₂ chosenNumbers p := by
  unfold positionMatches
  rw [h]

theorem matchTotal_eq_of_parsed (fields₁ fields₂ : List CppString)
    (chosenNumbers : List Int)
    (h : ∀ p : Nat, p < 6 → parsedValue fields₁ p = parsedValue fields₂ p) :
    matchTotal fields₁ chosenNumbers = matchTotal fields₂ chosenNumbers := by
  unfold matchTotal
  apply List.countP_congr
  intro p hp
  rw [positionMatches_eq_of_parsed _ _ _ _ (h p (List.mem_range.mp hp))]

theorem flags_eq_of_parsed (fields₁ fields₂ : List CppString) (chosenNumbers : List Int)
    (h : ∀ p : Nat, p < 6 → parsedValue fields₁ p = parsedValue fields₂ p) :
    (List.range chosenNumbers.length).map
        (fun q => decide (q < 6) && positionMatches fields₁ chosenNumbers q)
      = (List.range chosenNumbers.length).map
        (fun q => decide (q < 6) && positionMatches fields₂ chosenNumbers q) := by
  apply List.map_congr_left
  intro q _
  by_cases hq : q < 6
  · rw [positionMatches_eq_of_parsed _ _ _ _ (h q hq)]
  · simp [hq]

/-- Claim C14. The label in the display string of a result is the first field
of the line (the text before the first `;`) when that is not empty, and
"(Not found)" when it is empty; the label has no part in matching: lines
that are not skipped and differ in the first field only have the same match
count, flags and presence of a result. The line `;1;2;3;4;5;6` has the label
"(Not found)", no match and no result. -/
theorem label_sentinel :
    (∀ (filename : CppString) (chosenNumbers : List Int) (lineNumber : Int)
        (line : CppString) (info : MatchedLineInfo),
      processLine filename chosenNumbers lineNumber line = .ok (some info) →
      ∃ first rest, split line ';' = first :: rest ∧
        first = line.takeWhile (fun c => c != ';') ∧
        info.outputString
          = ANSI_COLOR_YELLOW ++ (if first ≠ [] then first else "(Not found)".toList)
              ++ ANSI_COLOR_RESET ++ [' ']
              ++ ((List.range 6).map (fieldToken (split line ';') chosenNumbers)).flatten) ∧
    (∀ (filename : CppString) (chosenNumbers : List Int) (lineNumber : Int)
        (line₁ line₂ : CppString),
      isSkipped line₁ = false → isSkipped line₂ = false →
      (split line₁ ';').tail = (split line₂ ';').tail →
        matchingPart (processLine filename chosenNumbers lineNumber line₁)
          = matchingPart (processLine filename chosenNumbers lineNumber line₂)) ∧
    (dateLabel (split scenarioLine3 ';') = "(Not found)".toList ∧
      matchTotal (split scenarioLine3 ';') mainChosenNumbers = 0 ∧
      ∀ (filename : CppString) (lineNumber : Int),
        processLine filename mainChosenNumbers lineNumber scenarioLine3 = .ok none) := by
  refine ⟨?_, ?_, by decide, by decide, ?_⟩
  · intro filename chosenNumbers lineNumber line info h
    obtain ⟨hs, _, h3⟩ := (processLine_some_iff _ _ _ _ _).mp h
    cases line with
    | nil => simp [isSkipped] at hs
    | cons c cs =>
      obtain ⟨rest, hrest⟩ := split_cons c cs ';'
      refine ⟨_, rest, hrest, rfl, ?_⟩
      rw [h3]
      simp only [expectedInfo]
      rw [hrest]
      rfl
  · intro filename chosenNumbers lineNumber line₁ line₂ hs₁ hs₂ htail
    have hp := parsedValue_eq_of_tail _ _ htail
    have hm := matchTotal_eq_of_parsed _ _ chosenNumbers (fun p _ => hp p)
    have hf := flags_eq_of_parsed _ _ chosenNumbers (fun p _ => hp p)
    rw [processLine_eq, processLine_eq, hs₁, hs₂, hm]
    by_cases hz : matchTotal (split line₂ ';') chosenNumbers = 0
    · simp [hz, matchingPart]
    · simp [hz, matchingPart, expectedInfo, hm, hf]
  · intro filename lineNumber
    rw [processLine_eq]
    have : matchTotal (split scenarioLine3 ';') mainChosenNumbers = 0 := by decide
    simp [this]

/-- Claim C14 at two lines that differ in the label only, one with an empty
label. -/
theorem label_sentinel_witness :
    processLine "a.csv".toList mainChosenNumbers 1 ";4;2;8".toList
      = .ok (some
          { outputString :=
              "\x1b[33m(Not found)\x1b[0m \x1b[32m4\x1b[0m 2 \x1b[32m8\x1b[0m".toList
            matchCount := 2
            filename := "a.csv".toList
            originalLineNumber := 1
            matchedChosenPositions := [true, false, true, false, false, false] }) ∧
    matchingPart (processLine "a.csv".toList mainChosenNumbers 1 ";4;2;8".toList)
      = matchingPart (processLine "a.csv".toList mainChosenNumbers 1 "2024-01-01;4;2;8".toList) :=
  ⟨by decide,
    label_sentinel.2.1 "a.csv".toList mainChosenNumbers 1 ";4;2;8".toList
      "2024-01-01;4;2;8".toList (by decide) (by decide) (by decide)⟩

/-! ## The match count and the match flags of a result agree -/

theorem countP_range_min (f : Nat → Bool) (m : Nat) (h : ∀ q : Nat, m ≤ q → f q = false) :
    ∀ n : Nat, (List.range n).countP f = (List.range (min n m)).countP f
  | 0 => by simp
  | n + 1 => by
    by_cases hn : n + 1 ≤ m
    · rw [Nat.min_eq_left hn]
    · have e : min (n + 1) m = min n m := by omega
      rw [e, ← countP_range_min f m h n, List.range_succ, List.countP_append]
      simp [h n (by omega)]

theorem positionMatches_of_ge (fields : List CppString) (chosenNumbers : List Int) (q : Nat)
    (hq : chosenNumbers.length ≤ q) : positionMatches fields chosenNumbers q = false := by
  have : chosenNumbers[q]? = none := List.getElem?_eq_none hq
  unfold positionMatches
  rw [this]
  cases parsedValue fields q <;> rfl

theorem matchTotal_eq_countP_min (fields : List CppString) (chosenNumbers : List Int) :
    matchTotal fields chosenNumbers
      = (List.range (min 6 chosenNumbers.length)).countP
          (positionMatches fields chosenNumbers) := by
  unfold matchTotal
  exact countP_range_min _ _ (fun q hq => positionMatches_of_ge fields chosenNumbers q hq) 6

theorem flags_count_eq_countP_min (fields : List CppString) (chosenNumbers : List Int) :
    ((List.range chosenNumbers.length).map
        (fun q => decide (q < 6) && positionMatches fields chosenNumbers q)).count true
      = (List.range (min 6 chosenNumbers.length)).countP
          (positionMatches fields chosenNumbers) := by
  rw [List.count_eq_countP, List.countP_map]
  rw [countP_range_min _ 6 (fun q hq => by simp; omega) chosenNumbers.length,
    Nat.min_comm]
  apply List.countP_congr
  intro q hq
  have : q < 6 := by
    have := List.mem_range.mp hq
    omega
  simp [this]

theorem matchCount_eq_flags_count (filename : CppString) (chosenNumbers : List Int)
    (lineNumber : Int) (line : CppString) (info : MatchedLineInfo)
    (h : processLine filename chosenNumbers lineNumber line = .ok (some info)) :
    info.matchCount = ((info.matchedChosenPositions.count true : Nat) : Int) ∧
    1 ≤ info.matchCount ∧
    info.matchCount ≤ ((min 6 chosenNumbers.length : Nat) : Int) := by
  obtain ⟨_, h2, h3⟩ := (processLine_some_iff _ _ _ _ _).mp h
  have hle : matchTotal (split line ';') chosenNumbers ≤ min 6 chosenNumbers.length := by
    rw [matchTotal_eq_countP_min]
    have := List.countP_le_length (positionMatches (split line ';') chosenNumbers)
      (l := List.range (min 6 chosenNumbers.length))
    simpa using this
  rw [h3]
  simp only [expectedInfo]
  rw [flags_count_eq_countP_min, ← matchTotal_eq_countP_min]
  refine ⟨rfl, by omega, by exact_mod_cast hle⟩

/-- Claim C19. For every result of `processCsvFile`, whatever the line and the
chosen-number vector, `matchCount` is the number of `true` entries of
`matchedChosenPositions`, and it lies between 1 and the smaller of 6 and the
length of the chosen-number vector. -/
theorem matchCount_consistent_with_flags (chosenNumbers : List Int) :
    (∀ (filename : CppString) (lineNumber : Int) (line : CppString) (info : MatchedLineInfo),
      processLine filename chosenNumbers lineNumber line = .ok (some info) →
        info.matchCount = ((info.matchedChosenPositions.count true : Nat) : Int) ∧
        1 ≤ info.matchCount ∧
        info.matchCount ≤ ((min 6 chosenNumbers.length : Nat) : Int)) ∧
    (∀ (file : Option (List CppString)) (filename : CppString),
      ∃ res, processCsvFile file filename chosenNumbers = .ok res ∧
        ∀ r ∈ res,
          r.matchCount = ((r.matchedChosenPositions.count true : Nat) : Int) ∧
          1 ≤ r.matchCount ∧
          r.matchCount ≤ ((min 6 chosenNumbers.length : Nat) : Int)) := by
  refine ⟨fun filename lineNumber line info h =>
    matchCount_eq_flags_count filename chosenNumbers lineNumber line info h, ?_⟩
  intro file filename
  exact processCsvFile_forall
    (fun r => r.matchCount = ((r.matchedChosenPositions.count true : Nat) : Int) ∧
      1 ≤ r.matchCount ∧ r.matchCount ≤ ((min 6 chosenNumbers.length : Nat) : Int))
    filename chosenNumbers
    (fun n line info h => matchCount_eq_flags_count filename chosenNumbers n line info h) file

/-- Claim C19 at a chosen-number vector of length 2 and a line whose first six
values all equal a chosen number of some position. -/
theorem matchCount_consistent_with_flags_witness :
    processLine "a.csv".toList [4, 6] 1 "2024-01-01;4;6;4;6;4;6".toList
      = .ok (some
          { outputString :=
              "\x1b[33m2024-01-01\x1b[0m \x1b[32m4\x1b[0m \x1b[32m6\x1b[0m 4 6 4 6".toList
            matchCount := 2
            filename := "a.csv".toList
            originalLineNumber := 1
            matchedChosenPositions := [true, true] }) ∧
    (2 : Int) ≤ ((min 6 ([4, 6] : List Int).length : Nat) : Int) :=
  ⟨by decide,
    ((matchCount_consistent_with_flags [4, 6]).1 "a.csv".toList 1
      "2024-01-01;4;6;4;6;4;6".toList
      { outputString :=
          "\x1b[33m2024-01-01\x1b[0m \x1b[32m4\x1b[0m \x1b[32m6\x1b[0m 4 6 4 6".toList
        matchCount := 2
        filename := "a.csv".toList
        originalLineNumber := 1
        matchedChosenPositions := [true, true] } (by decide)).2.2⟩

/-! ## Fields after the sixth value -/

theorem getElem?_eq_of_take_eq (fields₁ fields₂ : List CppString) (k : Nat)
    (h : fields₁.take k = fields₂.take k) (i : Nat) (hi : i < k) :
    fields₁[i]? = fields₂[i]? := by
  have h₁ : (fields₁.take k)[i]? = fields₁[i]? := by rw [List.getElem?_take, if_pos hi]
  have h₂ : (fields₂.take k)[i]? = fields₂[i]? := by rw [List.getElem?_take, if_pos hi]
  rw [← h₁, ← h₂, h]

theorem length_ge_of_take_eq (fields₁ fields₂ : List CppString) (k : Nat)
    (h : fields₁.take k = fields₂.take k) (hk : k ≤ fields₁.length) :
    k ≤ fields₂.length := by
  have := congrArg List.length h
  simp only [List.length_take] at this
  omega

theorem separator_of_seven (fields : List CppString) (h : 7 ≤ fields.length) (p : Nat)
    (hp : p < 6) : separator fields (p + 1) = if p + 1 < 6 then [' '] else [] := by
  unfold separator
  by_cases h6 : p + 1 < 6
  · have : p + 1 < 6 ∧ p + 1 < fields.length - 1 := ⟨h6, by omega⟩
    simp [this, h6]
  · have : ¬ (p + 1 < 6 ∧ p + 1 < fields.length - 1) := fun hc => h6 hc.1
    simp [this, h6]

theorem fieldToken_eq_of_take (fields₁ fields₂ : List CppString) (chosenNumbers : List Int)
    (h : fields₁.take 7 = fields₂.take 7) (hlen : 7 ≤ fields₁.length) (p : Nat)
    (hp : p < 6) :
    fieldToken fields₁ chosenNumbers p = fieldToken fields₂ chosenNumbers p := by
  have hpv : parsedValue fields₁ p = parsedValue fields₂ p := by
    unfold parsedValue
    rw [getElem?_eq_of_take_eq _ _ 7 h (p + 1) (by omega)]
  unfold fieldToken
  rw [hpv, positionMatches_eq_of_parsed _ _ _ _ hpv, separator_of_seven _ hlen p hp,
    separator_of_seven _ (length_ge_of_take_eq _ _ 7 h hlen) p hp]

theorem visiblePart_eq_of_take (filename₁ filename₂ : CppString) (chosenNumbers : List Int)
    (lineNumber₁ lineNumber₂ : Int) (line₁ line₂ : CppString)
    (hlen : 7 ≤ (split line₁ ';').length)
    (h : (split line₁ ';').take 7 = (split line₂ ';').take 7) :
    visiblePart (processLine filename₁ chosenNumbers lineNumber₁ line₁)
      = visiblePart (processLine filename₂ chosenNumbers lineNumber₂ line₂) := by
  have hlen₂ := length_ge_of_take_eq _ _ 7 h hlen
  have hne₁ : line₁ ≠ [] := by
    intro e; rw [e, split_nil] at hlen; simp at hlen
  have hne₂ : line₂ ≠ [] := by
    intro e; rw [e, split_nil] at hlen₂; simp at hlen₂
  have hhead : (split line₁ ';').head? = (split line₂ ';').head? := by
    have := getElem?_eq_of_take_eq _ _ 7 h 0 (by omega)
    simpa [List.head?_eq_getElem?] using this
  have hskip : isSkipped line₁ = isSkipped line₂ := by
    rw [isSkipped_eq_of_head line₁ hne₁, isSkipped_eq_of_head line₂ hne₂, hhead]
  have hpv : ∀ p : Nat, p < 6 →
      parsedValue (split line₁ ';') p = parsedValue (split line₂ ';') p := by
    intro p hp
    unfold parsedValue
    rw [getElem?_eq_of_take_eq _ _ 7 h (p + 1) (by omega)]
  have hm := matchTotal_eq_of_parsed _ _ chosenNumbers hpv
  have hf := flags_eq_of_parsed _ _ chosenNumbers hpv
  have hlabel : dateLabel (split line₁ ';') = dateLabel (split line₂ ';') := by
    cases h₁ : split line₁ ';' with
    | nil => rw [h₁] at hlen; simp at hlen
    | cons a t₁ =>
      cases h₂ : split line₂ ';' with
      | nil => rw [h₂] at hlen₂; simp at hlen₂
      | cons b t₂ =>
        rw [h₁, h₂] at hhead
        simp only [List.head?_cons, Option.some.injEq] at hhead
        rw [hhead]
        rfl
  have htok : (List.range 6).map (fieldToken (split line₁ ';') chosenNumbers)
      = (List.range 6).map (fieldToken (split line₂ ';') chosenNumbers) := by
    apply List.map_congr_left
    intro p hp
    exact fieldToken_eq_of_take _ _ chosenNumbers h hlen p (List.mem_range.mp hp)
  rw [processLine_eq, processLine_eq, hskip, hm]
  by_cases hz : isSkipped line₂ = true ∨ matchTotal (split line₂ ';') chosenNumbers = 0
  · simp [hz, visiblePart]
  · simp [hz, visiblePart, expectedInfo, hm, hf, hlabel, htok]

/-- Claim C20. Fields after the sixth value are ignored: two lines whose
first seven `;`-separated fields are all present and identical have the
same outcome (no result for both, or results with the same match count,
match flags and display string), whatever fields follow. -/
theorem fields_after_sixth_value_ignored (filename₁ filename₂ : CppString)
    (chosenNumbers : List Int) (lineNumber₁ lineNumber₂ : Int) (line₁ line₂ : CppString)
    (hpresent : 7 ≤ (split line₁ ';').length)
    (hsame : (split line₁ ';').take 7 = (split line₂ ';').take 7) :
    7 ≤ (split line₂ ';').length ∧
    visiblePart (processLine filename₁ chosenNumbers lineNumber₁ line₁)
      = visiblePart (processLine filename₂ chosenNumbers lineNumber₂ line₂) :=
  ⟨length_ge_of_take_eq _ _ 7 hsame hpresent,
    visiblePart_eq_of_take filename₁ filename₂ chosenNumbers lineNumber₁ lineNumber₂
      line₁ line₂ hpresent hsame⟩

/-- Claim C20 at a line of seven fields and the same line with three more
fields, one of which equals a chosen number. -/
theorem fields_after_sixth_value_ignored_witness :
    visiblePart (processLine "a.csv".toList mainChosenNumbers 1
        "2024-01-01;4;7;8;1;2;26".toList)
      = .ok (some (3, [true, false, true, false, false, true],
          ("\x1b[33m2024-01-01\x1b[0m \x1b[32m4\x1b[0m 7 \x1b[32m8\x1b[0m 1 2 ".toList
            ++ "\x1b[32m26\x1b[0m".toList))) ∧
    visiblePart (processLine "a.csv".toList mainChosenNumbers 1
        "2024-01-01;4;7;8;1;2;26".toList)
      = visiblePart (processLine "b.csv".toList mainChosenNumbers 5
        "2024-01-01;4;7;8;1;2;26;4;x;".toList) :=
  ⟨by decide,
    (fields_after_sixth_value_ignored "a.csv".toList "b.csv".toList mainChosenNumbers 1 5
      "2024-01-01;4;7;8;1;2;26".toList "2024-01-01;4;7;8;1;2;26;4;x;".toList
      (by decide) (by decide)).2⟩

/-! ## Integers outside the range of `int` -/

theorem isspace_of_isdigit (c : Char) (h : isdigit c = true) : isspace c = false := by
  simp only [isdigit, Bool.and_eq_true, decide_eq_true_eq] at h
  simp only [isspace, Bool.or_eq_false_iff, Bool.and_eq_false_imp, decide_eq_true_eq,
    beq_eq_false_iff_ne, ne_eq, decide_eq_false_iff_not]
  omega

theorem stoi_of_digits (digits : CppString) (hne : digits ≠ [])
    (hall : ∀ c ∈ digits, isdigit c = true) (s : CppString)
    (hs : s.dropWhile isspace = s)
    (hbody : (if s.head? == some '-' || s.head? == some '+' then s.drop 1 else s) = digits) :
    stoi s =
      (if (if (s.head? == some '-') = true then -((digitsValue digits : Nat) : Int)
            else ((digitsValue digits : Nat) : Int)) < -2147483648 ∨
          2147483647 < (if (s.head? == some '-') = true then -((digitsValue digits : Nat) : Int)
            else ((digitsValue digits : Nat) : Int))
        then .error .out_of_range
        else .ok (if (s.head? == some '-') = true then -((digitsValue digits : Nat) : Int)
            else ((digitsValue digits : Nat) : Int))) := by
  have htake : digits.takeWhile isdigit = digits := List.takeWhile_eq_self_iff.mpr hall
  have hempty : digits.isEmpty = false := by
    cases digits with
    | nil => exact absurd rfl hne
    | cons _ _ => rfl
  unfold stoi
  simp only [hs, hbody, htake, hempty, Bool.false_eq_true, if_false]

theorem stoi_of_integerText (text : CppString) (h : isIntegerText text = true) :
    stoi text =
      (if integerTextValue text < -2147483648 ∨ 2147483647 < integerTextValue text
        then .error .out_of_range else .ok (integerTextValue text)) := by
  have hminus : isspace '-' = false := by decide
  have hplus : isspace '+' = false := by decide
  cases text with
  | nil => simp [isIntegerText] at h
  | cons c cs =>
    by_cases hm : c = '-'
    · subst hm
      have hb : cs ≠ [] ∧ ∀ x ∈ cs, isdigit x = true := by
        simpa [isIntegerText, List.isEmpty_eq_true] using h
      have := stoi_of_digits cs hb.1 hb.2 ('-' :: cs) (by simp [List.dropWhile, hminus])
        (by simp)
      rw [this]
      simp [integerTextValue]
    · by_cases hp : c = '+'
      · subst hp
        have hb : cs ≠ [] ∧ ∀ x ∈ cs, isdigit x = true := by
          simpa [isIntegerText, List.isEmpty_eq_true] using h
        have := stoi_of_digits cs hb.1 hb.2 ('+' :: cs)
          (by simp [List.dropWhile, hplus]) (by simp)
        rw [this]
        simp [integerTextValue]
      · have hb : isdigit c = true ∧ ∀ x ∈ cs, isdigit x = true := by
          simpa [isIntegerText, hm, hp] using h
        have hall : ∀ x ∈ c :: cs, isdigit x = true := by
          intro x hx
          rcases List.mem_cons.mp hx with e | e
          · rw [e]; exact hb.1
          · exact hb.2 x e
        have := stoi_of_digits (c :: cs) (by simp) hall (c :: cs)
          (by simp [List.dropWhile, isspace_of_isdigit c hb.1])
          (by simp [hm, hp])
        rw [this]
        simp [integerTextValue, hm, hp]

theorem discarded_field_effects (filename : CppString) (chosenNumbers : List Int)
    (lineNumber : Int) (line : CppString) (p : Nat) (field : CppString) (e : StoiError)
    (hfield : (split line ';')[p + 1]? = some field) (hstoi : stoi field = .error e) :
    positionMatches (split line ';') chosenNumbers p = false ∧
    fieldToken (split line ';') chosenNumbers p = [] ∧
    ∀ info, processLine filename chosenNumbers lineNumber line = .ok (some info) →
      info.matchedChosenPositions[p]? ≠ some true ∧
      info.matchCount
        = ((((List.range 6).filter (fun q => decide (q ≠ p))).countP
            (positionMatches (split line ';') chosenNumbers) : Nat) : Int) ∧
      info.outputString
        = ANSI_COLOR_YELLOW ++ dateLabel (split line ';') ++ ANSI_COLOR_RESET ++ [' ']
            ++ (((List.range 6).filter (fun q => decide (q ≠ p))).map
                  (fieldToken (split line ';') chosenNumbers)).flatten := by
  have hpv : parsedValue (split line ';') p = none := by
    simp [parsedValue, hfield, hstoi]
  have hpm : positionMatches (split line ';') chosenNumbers p = false := by
    simp [positionMatches, hpv]
  have htok : fieldToken (split line ';') chosenNumbers p = [] := by
    simp [fieldToken, hpv]
  refine ⟨hpm, htok, ?_⟩
  intro info h
  obtain ⟨_, _, h3⟩ := (processLine_some_iff _ _ _ _ _).mp h
  rw [h3]
  refine ⟨?_, ?_, ?_⟩
  · simp only [expectedInfo]
    by_cases hlen : p < chosenNumbers.length
    · simp [List.getElem?_range hlen, hlen, hpm]
    · rw [List.getElem?_eq_none (by simp; omega)]
      simp
  · simp only [expectedInfo, matchTotal]
    rw [countP_filter_ne _ p hpm]
  · simp only [expectedInfo]
    rw [flatten_map_filter_ne _ p htok]

/-- Claim C17. A value field whose text is a decimal integer outside the range
of a 32-bit `int` is rejected by `std::stoi` with `out_of_range`, never
wrapped: its position does not match, it adds nothing to the display
string, and the result of the line, if any, is that of the other fields.
So `4294967300`, congruent to 4 modulo 2^32, is not a match for the chosen
number 4. -/
theorem out_of_range_field_discarded (filename : CppString) (chosenNumbers : List Int)
    (lineNumber : Int) (line : CppString) (p : Nat) (field : CppString)
    (hfield : (split line ';')[p + 1]? = some field)
    (hinteger : isIntegerText field = true)
    (hrange : integerTextValue field < -2147483648 ∨ 2147483647 < integerTextValue field) :
    stoi field = .error .out_of_range ∧
    positionMatches (split line ';') chosenNumbers p = false ∧
    fieldToken (split line ';') chosenNumbers p = [] ∧
    ∀ info, processLine filename chosenNumbers lineNumber line = .ok (some info) →
      info.matchedChosenPositions[p]? ≠ some true ∧
      info.matchCount
        = ((((List.range 6).filter (fun q => decide (q ≠ p))).countP
            (positionMatches (split line ';') chosenNumbers) : Nat) : Int) ∧
      info.outputString
        = ANSI_COLOR_YELLOW ++ dateLabel (split line ';') ++ ANSI_COLOR_RESET ++ [' ']
            ++ (((List.range 6).filter (fun q => decide (q ≠ p))).map
                  (fieldToken (split line ';') chosenNumbers)).flatten := by
  have hstoi : stoi field = .error .out_of_range := by
    rw [stoi_of_integerText field hinteger]
    simp [hrange]
  exact ⟨hstoi, discarded_field_effects filename chosenNumbers lineNumber line p field _
    hfield hstoi⟩

/-- Claim C17 at the field `4294967300` in position 0, against the chosen
number 4. -/
theorem out_of_range_field_discarded_witness :
    integerTextValue "4294967300".toList % 4294967296 = 4 ∧
    stoi "4294967300".toList = .error .out_of_range ∧
    stoi "-2147483649".toList = .error .out_of_range ∧
    stoi "2147483647".toList = .ok 2147483647 ∧
    processLine "a.csv".toList mainChosenNumbers 1 "2024-01-01;4294967300;6".toList
      = .ok (some
          { outputString := "\x1b[33m2024-01-01\x1b[0m \x1b[32m6\x1b[0m".toList
            matchCount := 1
            filename := "a.csv".toList
            originalLineNumber := 1
            matchedChosenPositions := [false, true, false, false, false, false] }) :=
  ⟨by decide,
    (out_of_range_field_discarded "a.csv".toList mainChosenNumbers 1
      "2024-01-01;4294967300;6".toList 0 "4294967300".toList (by decide) (by decide)
      (by decide)).1,
    by decide, by decide, by decide⟩

/-! ## The results of a file and of all files in closed form -/

theorem lineResults_mem (filename : CppString) (chosenNumbers : List Int) (lineNumber : Int)
    (line : CppString) (r : MatchedLineInfo) :
    r ∈ lineResults filename chosenNumbers lineNumber line ↔
      processLine filename chosenNumbers lineNumber line = .ok (some r) := by
  rw [processLine_eq]
  unfold lineResults
  by_cases h : isSkipped line = true ∨ matchTotal (split line ';') chosenNumbers = 0
  · simp [h]
  · simp only [h, if_false, List.mem_singleton, Except.ok.injEq, Option.some.injEq]
    exact eq_comm

theorem processLines_eq (filename : CppString) (chosenNumbers : List Int) :
    ∀ (lines : List CppString) (n : Int) (acc : List MatchedLineInfo),
      processLines filename chosenNumbers n lines acc
        = .ok (acc ++ resultsFrom filename chosenNumbers n lines)
  | [], n, acc => by simp [processLines, resultsFrom]
  | line :: rest, n, acc => by
    rw [processLines, processLine_eq, resultsFrom, lineResults]
    by_cases h : isSkipped line = true ∨ matchTotal (split line ';') chosenNumbers = 0
    · simp only [h, if_true]
      rw [processLines_eq filename chosenNumbers rest (n + 1) acc]
      simp
    · simp only [h, if_false]
      rw [processLines_eq filename chosenNumbers rest (n + 1)]
      simp

theorem processCsvFile_eq (file : Option (List CppString)) (filename : CppString)
    (chosenNumbers : List Int) :
    processCsvFile file filename chosenNumbers
      = .ok (fileResults file filename chosenNumbers) := by
  cases file with
  | none => rfl
  | some lines =>
    simp [processCsvFile, fileResults, processLines_eq]

theorem collectMatchedLines_eq (openFile : CppString → Option (List CppString))
    (chosenNumbers : List Int) :
    ∀ (csvFiles : List CppString) (acc : List MatchedLineInfo),
      collectMatchedLines openFile chosenNumbers csvFiles acc
        = .ok (acc ++ allResults openFile chosenNumbers csvFiles)
  | [], acc => by simp [collectMatchedLines, allResults]
  | filename :: rest, acc => by
    rw [collectMatchedLines, processCsvFile_eq]
    simp only
    rw [collectMatchedLines_eq openFile chosenNumbers rest, allResults]
    simp

theorem resultsFrom_mem (filename : CppString) (chosenNumbers : List Int) :
    ∀ (lines : List CppString) (n : Int) (r : MatchedLineInfo),
      r ∈ resultsFrom filename chosenNumbers n lines ↔
        ∃ (k : Nat) (line : CppString), lines[k]? = some line ∧
          processLine filename chosenNumbers (n + (k : Int) + 1) line = .ok (some r)
  | [], n, r => by simp [resultsFrom]
  | l :: rest, n, r => by
    rw [resultsFrom, List.mem_append, lineResults_mem,
      resultsFrom_mem filename chosenNumbers rest (n + 1) r]
    constructor
    · rintro (h | ⟨k, line, hk, h⟩)
      · exact ⟨0, l, by simp, by simpa using h⟩
      · refine ⟨k + 1, line, by simpa using hk, ?_⟩
        have e : n + ((k + 1 : Nat) : Int) + 1 = n + 1 + (k : Int) + 1 := by
          push_cast; omega
        rw [e]; exact h
    · rintro ⟨k, line, hk, h⟩
      cases k with
      | zero =>
        left
        simp only [List.getElem?_cons_zero, Option.some.injEq] at hk
        rw [hk]
        simpa using h
      | succ k =>
        right
        refine ⟨k, line, by simpa using hk, ?_⟩
        have e : n + ((k + 1 : Nat) : Int) + 1 = n + 1 + (k : Int) + 1 := by
          push_cast; omega
        rw [← e]; exact h

theorem result_fields (filename : CppString) (chosenNumbers : List Int) (n : Int)
    (line : CppString) (r : MatchedLineInfo)
    (h : processLine filename chosenNumbers n line = .ok (some r)) :
    r.filename = filename ∧ r.originalLineNumber = n := by
  obtain ⟨_, _, h3⟩ := (processLine_some_iff _ _ _ _ _).mp h
  rw [h3]
  exact ⟨rfl, rfl⟩

theorem resultsFrom_pairwise (filename : CppString) (chosenNumbers : List Int) :
    ∀ (lines : List CppString) (n : Int),
      (resultsFrom filename chosenNumbers n lines).Pairwise
        (fun a b => a.originalLineNumber < b.originalLineNumber)
  | [], n => by simp [resultsFrom]
  | l :: rest, n => by
    rw [resultsFrom, List.pairwise_append]
    refine ⟨?_, resultsFrom_pairwise filename chosenNumbers rest (n + 1), ?_⟩
    · unfold lineResults
      split <;> simp
    · intro a ha b hb
      have h₁ := (result_fields _ _ _ _ _ ((lineResults_mem _ _ _ _ _).mp ha)).2
      obtain ⟨k, line, _, hk⟩ := (resultsFrom_mem _ _ _ _ _).mp hb
      have h₂ := (result_fields _ _ _ _ _ hk).2
      omega

/-- Claim C15. For a source given as a sequence of lines, the results of
`processCsvFile` are exactly the results of its lines, each processed with
its 1-based position among all lines of the source as line number; every
result carries the source name and that position, and the list is in
strictly increasing order of line number. -/
theorem line_numbering (filename : CppString) (chosenNumbers : List Int)
    (lines : List CppString) :
    ∃ res, processCsvFile (some lines) filename chosenNumbers = .ok res ∧
      (∀ r ∈ res, r.filename = filename ∧
        ∃ (k : Nat) (line : CppString), lines[k]? = some line ∧
          r.originalLineNumber = (k : Int) + 1 ∧
          processLine filename chosenNumbers ((k : Int) + 1) line = .ok (some r)) ∧
      (∀ (k : Nat) (line : CppString) (r : MatchedLineInfo), lines[k]? = some line →
        processLine filename chosenNumbers ((k : Int) + 1) line = .ok (some r) → r ∈ res) ∧
      res.Pairwise (fun a b => a.originalLineNumber < b.originalLineNumber) := by
  refine ⟨_, processCsvFile_eq _ _ _, ?_, ?_, ?_⟩
  · intro r hr
    obtain ⟨k, line, hk, h⟩ := (resultsFrom_mem _ _ _ _ _).mp hr
    rw [Int.zero_add] at h
    have hf := result_fields _ _ _ _ _ h
    exact ⟨hf.1, k, line, hk, hf.2, h⟩
  · intro k line r hk h
    apply (resultsFrom_mem filename chosenNumbers lines 0 r).mpr
    exact ⟨k, line, hk, by rw [Int.zero_add]; exact h⟩
  · exact resultsFrom_pairwise filename chosenNumbers lines 0

/-- Claim C15 at the file `a.csv` of the sample directory: its results come
from lines 2 and 4; the header line 1 and the empty line 3 are counted. -/
theorem line_numbering_witness :
    processCsvFile (sampleFiles "a.csv".toList) "a.csv".toList mainChosenNumbers
      = .ok [sampleResult2, sampleResult4] ∧
    sampleResult2.originalLineNumber = 2 ∧ sampleResult4.originalLineNumber = 4 ∧
    ∃ res, processCsvFile (some ["date;n1;n2".toList, "2024-01-01;1;6;3".toList, [],
        "2024-01-08;4;6;9".toList]) "a.csv".toList mainChosenNumbers = .ok res ∧
      res.Pairwise (fun a b => a.originalLineNumber < b.originalLineNumber) := by
  refine ⟨by decide, by decide, by decide, ?_⟩
  obtain ⟨res, h, _, _, hp⟩ := line_numbering "a.csv".toList mainChosenNumbers
    ["date;n1;n2".toList, "2024-01-01;1;6;3".toList, [], "2024-01-08;4;6;9".toList]
  exact ⟨res, h, hp⟩

/-! ## Sorted rearrangements -/

theorem keyLe_antisymm {k l : RankKey} (h₁ : keyLe k l) (h₂ : keyLe l k) : k = l := by
  by_contra hne
  rcases keyLt_total hne with h | h
  · exact h₂ h
  · exact h₁ h

theorem keyLe_total (k l : RankKey) : keyLe k l ∨ keyLe l k := by
  by_cases h : keyLt l k
  · right
    intro h'
    exact keyLt_irrefl _ (keyLt_trans h h')
  · left; exact h

theorem keyLe_trans {k l m : RankKey} (h₁ : keyLe k l) (h₂ : keyLe l m) : keyLe k m := by
  intro h
  by_cases e : k = l
  · rw [e] at h; exact h₂ h
  · rcases keyLt_total e with h' | h'
    · exact h₂ (keyLt_trans h h')
    · exact h₁ h'

theorem sorted_keys_of_sorted (n : Nat) (s : List MatchedLineInfo)
    (hlen : ∀ r ∈ s, r.matchedChosenPositions.length = n)
    (hs : s.Pairwise (fun x y => y.lt x ≠ .ok true)) :
    (s.map rankKey).Pairwise keyLe := by
  rw [List.pairwise_map]
  refine List.Pairwise.imp_of_mem ?_ hs
  intro a b ha hb hab
  have hl : b.matchedChosenPositions.length = a.matchedChosenPositions.length := by
    rw [hlen a ha, hlen b hb]
  intro hk
  exact hab ((lt_true_iff b a hl).mpr hk)

theorem sorted_false_of_sorted (n : Nat) (s : List MatchedLineInfo)
    (hlen : ∀ r ∈ s, r.matchedChosenPositions.length = n)
    (hs : s.Pairwise (fun x y => y.lt x ≠ .ok true)) :
    s.Pairwise (fun x y => y.lt x = .ok false) := by
  refine List.Pairwise.imp_of_mem ?_ hs
  intro a b ha hb hab
  have hl : b.matchedChosenPositions.length = a.matchedChosenPositions.length := by
    rw [hlen a ha, hlen b hb]
  rw [lt_false_iff b a hl]
  intro hk
  exact hab ((lt_true_iff b a hl).mpr hk)

theorem keys_eq_of_sorted_perm (n : Nat) (s₁ s₂ : List MatchedLineInfo)
    (hlen : ∀ r ∈ s₁, r.matchedChosenPositions.length = n)
    (hperm : s₁.Perm s₂)
    (h₁ : s₁.Pairwise (fun x y => y.lt x ≠ .ok true))
    (h₂ : s₂.Pairwise (fun x y => y.lt x ≠ .ok true)) :
    s₁.map rankKey = s₂.map rankKey := by
  have hlen₂ : ∀ r ∈ s₂, r.matchedChosenPositions.length = n :=
    fun r hr => hlen r (hperm.mem_iff.mpr hr)
  haveI : IsAntisymm RankKey keyLe := ⟨fun _ _ => keyLe_antisymm⟩
  exact List.eq_of_perm_of_sorted (hperm.map rankKey)
    (sorted_keys_of_sorted n s₁ hlen h₁) (sorted_keys_of_sorted n s₂ hlen₂ h₂)

theorem eq_of_map_eq_of_nodup {β : Type} (f : MatchedLineInfo → β) :
    ∀ (s₁ s₂ : List MatchedLineInfo), s₁.Perm s₂ → s₁.map f = s₂.map f →
      (s₁.map f).Nodup → s₁ = s₂
  | [], [], _, _, _ => rfl
  | [], _ :: _, _, h, _ => by simp at h
  | _ :: _, [], _, h, _ => by simp at h
  | a :: t₁, b :: t₂, hperm, hmap, hnd => by
    simp only [List.map_cons, List.cons.injEq] at hmap
    rw [List.map_cons, List.nodup_cons] at hnd
    have hab : a = b := by
      have hb : b ∈ a :: t₁ := hperm.mem_iff.mpr (List.mem_cons_self _ _)
      rcases List.mem_cons.mp hb with e | e
      · exact e.symm
      · exact absurd (hmap.1 ▸ List.mem_map_of_mem f e) hnd.1
    subst hab
    rw [eq_of_map_eq_of_nodup f t₁ t₂ (List.Perm.cons_inv hperm) hmap.2 hnd.2]

theorem sorted_perm_unique (n : Nat) (s₁ s₂ : List MatchedLineInfo)
    (hlen : ∀ r ∈ s₁, r.matchedChosenPositions.length = n)
    (hperm : s₁.Perm s₂)
    (h₁ : s₁.Pairwise (fun x y => y.lt x ≠ .ok true))
    (h₂ : s₂.Pairwise (fun x y => y.lt x ≠ .ok true))
    (hnd : (s₁.map rankKey).Nodup) : s₁ = s₂ :=
  eq_of_map_eq_of_nodup rankKey s₁ s₂ hperm
    (keys_eq_of_sorted_perm n s₁ s₂ hlen hperm h₁ h₂) hnd

theorem exists_sorted (n : Nat) (input : List MatchedLineInfo)
    (hlen : ∀ r ∈ input, r.matchedChosenPositions.length = n) :
    ∃ s, StdSortPost input s := by
  haveI : IsTotal MatchedLineInfo notAfter := ⟨fun a b => keyLe_total _ _⟩
  haveI : IsTrans MatchedLineInfo notAfter := ⟨fun _ _ _ h₁ h₂ => keyLe_trans h₁ h₂⟩
  have hperm : (input.insertionSort notAfter).Perm input := List.perm_insertionSort _ input
  refine ⟨input.insertionSort notAfter, hperm, ?_⟩
  refine List.Pairwise.imp_of_mem ?_ (List.sorted_insertionSort notAfter input)
  intro a b ha hb hab
  have hl : b.matchedChosenPositions.length = a.matchedChosenPositions.length := by
    rw [hlen a (hperm.mem_iff.mp ha), hlen b (hperm.mem_iff.mp hb)]
  intro h
  exact hab ((lt_true_iff b a hl).mp h)

theorem nodup_keys_of_no_ties (n : Nat) (input : List MatchedLineInfo)
    (hlen : ∀ r ∈ input, r.matchedChosenPositions.length = n)
    (h : input.Pairwise (fun a b => ¬ sameKeys a b)) : (input.map rankKey).Nodup := by
  unfold List.Nodup
  rw [List.pairwise_map]
  refine List.Pairwise.imp_of_mem ?_ h
  intro a b ha hb hab e
  exact hab ((rankKey_eq_iff a b (by rw [hlen a ha, hlen b hb])).mp e)

/-! ## Claims about sorting -/

/-- Claim C12 as stated fails. Two results that agree in all four keys and
differ in `outputString` are equivalent for `operator<`, and `std::sort` may
leave them in either order: the list `[x, y]` is a sorted arrangement of
itself, and so is `[y, x]`, so sorting the sorted list again need not give
the same sequence. -/
theorem sort_idempotent_counterexample :
    ¬ (∀ (input s₁ s₂ : List MatchedLineInfo),
        (∀ r ∈ input, r.matchedChosenPositions.length = 6) →
        StdSortPost input s₁ → StdSortPost s₁ s₂ → s₂ = s₁) := by
  intro h
  have := h [sampleTie "x", sampleTie "y"] [sampleTie "x", sampleTie "y"]
    [sampleTie "y", sampleTie "x"] (by decide) (by decide) (by decide)
  revert this
  decide

/-- Claim C12, amended. For a list of results with length-6 flag vectors a
sorted arrangement exists, and every sorted arrangement is a permutation of
the list in which no element is preceded by one that the comparator ranks
strictly after it. Sorting a sorted arrangement again gives a sequence with
the same four keys at every index, and gives the same sequence when no two
entries of the list agree in all four keys. -/
theorem sort_idempotent_without_ties (input : List MatchedLineInfo)
    (hlen : ∀ r ∈ input, r.matchedChosenPositions.length = 6) :
    (∃ s, StdSortPost input s) ∧
    (∀ s, StdSortPost input s →
      s.Perm input ∧ s.Pairwise (fun x y => y.lt x = .ok false)) ∧
    (∀ s₁ s₂, StdSortPost input s₁ → StdSortPost s₁ s₂ →
      s₂.map rankKey = s₁.map rankKey ∧
      (input.Pairwise (fun a b => ¬ sameKeys a b) → s₂ = s₁)) := by
  refine ⟨exists_sorted 6 input hlen, ?_, ?_⟩
  · intro s hs
    have hlen' : ∀ r ∈ s, r.matchedChosenPositions.length = 6 :=
      fun r hr => hlen r (hs.1.mem_iff.mp hr)
    exact ⟨hs.1, sorted_false_of_sorted 6 s hlen' hs.2⟩
  · intro s₁ s₂ hs₁ hs₂
    have hlen₁ : ∀ r ∈ s₁, r.matchedChosenPositions.length = 6 :=
      fun r hr => hlen r (hs₁.1.mem_iff.mp hr)
    have hlen₂ : ∀ r ∈ s₂, r.matchedChosenPositions.length = 6 :=
      fun r hr => hlen₁ r (hs₂.1.mem_iff.mp hr)
    refine ⟨keys_eq_of_sorted_perm 6 s₂ s₁ hlen₂ hs₂.1 hs₂.2 hs₁.2, ?_⟩
    intro hties
    have hnd : (input.map rankKey).Nodup := nodup_keys_of_no_ties 6 input hlen hties
    have hnd₂ : (s₂.map rankKey).Nodup :=
      (((hs₂.1.trans hs₁.1).map rankKey).nodup_iff).mpr hnd
    exact sorted_perm_unique 6 s₂ s₁ hlen₂ hs₂.1 hs₂.2 hs₁.2 hnd₂

/-- The amended claim C12 at the two results of the sample directory: the
sorted arrangement puts the result with two matches first, and sorting it
again leaves it as it is. -/
theorem sort_idempotent_without_ties_witness :
    StdSortPost [sampleResult2, sampleResult4] [sampleResult4, sampleResult2] ∧
    ∀ s₂, StdSortPost [sampleResult4, sampleResult2] s₂ →
      s₂ = [sampleResult4, sampleResult2] :=
  ⟨by decide, fun s₂ hs₂ =>
    ((sort_idempotent_without_ties [sampleResult2, sampleResult4] (by decide)).2.2
      [sampleResult4, sampleResult2] s₂ (by decide) hs₂).2 (by decide)⟩

/-! ## The combined list of results -/

theorem fileResults_mem (file : Option (List CppString)) (filename : CppString)
    (chosenNumbers : List Int) (r : MatchedLineInfo)
    (h : r ∈ fileResults file filename chosenNumbers) :
    ∃ (n : Int) (line : CppString),
      processLine filename chosenNumbers n line = .ok (some r) := by
  cases file with
  | none => simp [fileResults] at h
  | some lines =>
    obtain ⟨k, line, _, hk⟩ := (resultsFrom_mem _ _ _ _ _).mp h
    exact ⟨_, line, hk⟩

theorem fileResults_pairwise (file : Option (List CppString)) (filename : CppString)
    (chosenNumbers : List Int) :
    (fileResults file filename chosenNumbers).Pairwise
      (fun a b => a.originalLineNumber < b.originalLineNumber) := by
  cases file with
  | none => simp [fileResults]
  | some lines => exact resultsFrom_pairwise filename chosenNumbers lines 0

theorem allResults_mem (openFile : CppString → Option (List CppString))
    (chosenNumbers : List Int) :
    ∀ (csvFiles : List CppString) (r : MatchedLineInfo),
      r ∈ allResults openFile chosenNumbers csvFiles →
        ∃ filename ∈ csvFiles, ∃ (n : Int) (line : CppString),
          processLine filename chosenNumbers n line = .ok (some r)
  | [], r, h => by simp [allResults] at h
  | filename :: rest, r, h => by
    rw [allResults, List.mem_append] at h
    rcases h with h | h
    · obtain ⟨n, line, hn⟩ := fileResults_mem _ _ _ _ h
      exact ⟨filename, List.mem_cons_self _ _, n, line, hn⟩
    · obtain ⟨f, hf, n, line, hn⟩ := allResults_mem openFile chosenNumbers rest r h
      exact ⟨f, List.mem_cons_of_mem _ hf, n, line, hn⟩

theorem allResults_length (openFile : CppString → Option (List CppString))
    (chosenNumbers : List Int) (csvFiles : List CppString) (r : MatchedLineInfo)
    (h : r ∈ allResults openFile chosenNumbers csvFiles) :
    r.matchedChosenPositions.length = chosenNumbers.length := by
  obtain ⟨_, _, n, line, hn⟩ := allResults_mem openFile chosenNumbers csvFiles r h
  obtain ⟨_, _, h3⟩ := (processLine_some_iff _ _ _ _ _).mp hn
  rw [h3]
  simp [expectedInfo]

theorem allResults_pairwise (openFile : CppString → Option (List CppString))
    (chosenNumbers : List Int) :
    ∀ csvFiles : List CppString, csvFiles.Nodup →
      (allResults openFile chosenNumbers csvFiles).Pairwise
        (fun a b => (a.filename, a.originalLineNumber) ≠ (b.filename, b.originalLineNumber))
  | [], _ => by simp [allResults]
  | filename :: rest, hnd => by
    rw [List.nodup_cons] at hnd
    rw [allResults, List.pairwise_append]
    refine ⟨?_, allResults_pairwise openFile chosenNumbers rest hnd.2, ?_⟩
    · refine List.Pairwise.imp ?_ (fileResults_pairwise _ filename chosenNumbers)
      intro a b hab e
      have := (Prod.mk.inj e).2
      omega
    · intro a ha b hb e
      obtain ⟨n, line, hn⟩ := fileResults_mem _ _ _ _ ha
      obtain ⟨f, hf, m, line', hm⟩ := allResults_mem openFile chosenNumbers rest b hb
      have h₁ := (result_fields _ _ _ _ _ hn).1
      have h₂ := (result_fields _ _ _ _ _ hm).1
      have h₃ := (Prod.mk.inj e).1
      rw [h₁, h₂] at h₃
      rw [h₃] at hnd
      exact hnd.1 hf

theorem rankKey_ne_of_source_ne (a b : MatchedLineInfo)
    (h : (a.filename, a.originalLineNumber) ≠ (b.filename, b.originalLineNumber)) :
    rankKey a ≠ rankKey b := by
  intro e
  apply h
  simp only [rankKey, Prod.mk.injEq] at e
  rw [e.2.2.1, e.2.2.2]

theorem exactly_one_precedes (a b : MatchedLineInfo)
    (hlen : a.matchedChosenPositions.length = b.matchedChosenPositions.length)
    (hne : rankKey a ≠ rankKey b) :
    (a.lt b = .ok true ∧ b.lt a = .ok false) ∨
    (a.lt b = .ok false ∧ b.lt a = .ok true) := by
  rw [lt_true_iff a b hlen, lt_false_iff b a hlen.symm, lt_false_iff a b hlen,
    lt_true_iff b a hlen.symm]
  rcases keyLt_total hne with h | h
  · left
    exact ⟨h, fun h' => keyLt_irrefl _ (keyLt_trans h h')⟩
  · right
    exact ⟨fun h' => keyLt_irrefl _ (keyLt_trans h h'), h⟩

/-- Claim C18. For sources with pairwise distinct names the combined list of
results exists, no two of its entries share the pair of file name and line
number, of any two entries at distinct indices exactly one precedes the
other, a sorted arrangement exists, and the sorted arrangement is the same
for every permutation of the combined list, so it depends neither on the
order in which the sources are processed nor on the stability of the sort. -/
theorem order_total_on_output (openFile : CppString → Option (List CppString))
    (chosenNumbers : List Int) (csvFiles : List CppString) (hnames : csvFiles.Nodup) :
    ∃ all, collectMatchedLines openFile chosenNumbers csvFiles [] = .ok all ∧
      (all.map (fun r => (r.filename, r.originalLineNumber))).Nodup ∧
      (∀ (i j : Nat) (hi : i < all.length) (hj : j < all.length), i ≠ j →
        ((all[i].lt all[j] = .ok true ∧ all[j].lt all[i] = .ok false) ∨
         (all[i].lt all[j] = .ok false ∧ all[j].lt all[i] = .ok true))) ∧
      (∃ s, StdSortPost all s) ∧
      (∀ (p s₁ s₂ : List MatchedLineInfo), p.Perm all →
        StdSortPost all s₁ → StdSortPost p s₂ → s₁ = s₂) := by
  have hall := collectMatchedLines_eq openFile chosenNumbers csvFiles []
  rw [List.nil_append] at hall
  have hlen : ∀ r ∈ allResults openFile chosenNumbers csvFiles,
      r.matchedChosenPositions.length = chosenNumbers.length :=
    fun r hr => allResults_length openFile chosenNumbers csvFiles r hr
  have hpw := allResults_pairwise openFile chosenNumbers csvFiles hnames
  have hkeys : (allResults openFile chosenNumbers csvFiles).Pairwise
      (fun a b => rankKey a ≠ rankKey b) :=
    List.Pairwise.imp (fun {a b} h => rankKey_ne_of_source_ne a b h) hpw
  refine ⟨_, hall, ?_, ?_, exists_sorted _ _ hlen, ?_⟩
  · unfold List.Nodup
    rw [List.pairwise_map]
    exact hpw
  · intro i j hi hj hij
    have hl : ∀ (x y : Nat) (hx : x < (allResults openFile chosenNumbers csvFiles).length)
        (hy : y < (allResults openFile chosenNumbers csvFiles).length),
        (allResults openFile chosenNumbers csvFiles)[x].matchedChosenPositions.length
          = (allResults openFile chosenNumbers csvFiles)[y].matchedChosenPositions.length := by
      intro x y hx hy
      rw [hlen _ (List.getElem_mem hx), hlen _ (List.getElem_mem hy)]
    rcases Nat.lt_or_gt_of_ne hij with h | h
    · exact exactly_one_precedes _ _ (hl i j hi hj)
        (List.pairwise_iff_getElem.mp hkeys i j hi hj h)
    · exact exactly_one_precedes _ _ (hl i j hi hj)
        (fun e => List.pairwise_iff_getElem.mp hkeys j i hj hi h e.symm)
  · intro p s₁ s₂ hp hs₁ hs₂
    have hperm : s₁.Perm s₂ := hs₁.1.trans (hp.symm.trans hs₂.1.symm)
    have hlen₁ : ∀ r ∈ s₁, r.matchedChosenPositions.length = chosenNumbers.length :=
      fun r hr => hlen r (hs₁.1.mem_iff.mp hr)
    have hnd : ((allResults openFile chosenNumbers csvFiles).map rankKey).Nodup := by
      unfold List.Nodup
      rw [List.pairwise_map]
      exact hkeys
    have hnd₁ : (s₁.map rankKey).Nodup := ((hs₁.1.map rankKey).nodup_iff).mpr hnd
    exact sorted_perm_unique _ s₁ s₂ hlen₁ hperm hs₁.2 hs₂.2 hnd₁

/-- Claim C18 at the sample directory: whichever of the two orders of its
results is sorted, the sorted arrangement is the one with the result of
line 4 first. -/
theorem order_total_on_output_witness :
    (["a.csv".toList, "b.csv".toList] : List CppString).Nodup ∧
    collectMatchedLines sampleFiles mainChosenNumbers ["a.csv".toList, "b.csv".toList] []
      = .ok [sampleResult2, sampleResult4] ∧
    ∀ s₂, StdSortPost [sampleResult4, sampleResult2] s₂ →
      [sampleResult4, sampleResult2] = s₂ := by
  refine ⟨by decide, by decide, ?_⟩
  intro s₂ hs₂
  obtain ⟨all, hall, _, _, _, huniq⟩ := order_total_on_output sampleFiles mainChosenNumbers
    ["a.csv".toList, "b.csv".toList] (by decide)
  have hcollect :
      collectMatchedLines sampleFiles mainChosenNumbers ["a.csv".toList, "b.csv".toList] []
        = .ok [sampleResult2, sampleResult4] := by decide
  rw [hcollect] at hall
  have hEq : all = [sampleResult2, sampleResult4] := (Except.ok.inj hall).symm
  subst hEq
  exact huniq [sampleResult4, sampleResult2] [sampleResult4, sampleResult2] s₂
    (by decide) (by decide) hs₂

end LottoMatch
